import Mathlib

/-!
Shallow embedding of the census-tract geocoding pipeline.

The source program loads census-tract polygons from shapefiles
(`loadCensusTractShapefiles` in the spatial-index module), builds an
RBush bounding-box index over them, and answers point queries with
`findTractForPoint`, which filters candidates by bounding box and then
runs turf's `booleanPointInPolygon` even-odd ray-casting test.  A
streaming pipeline (`processAddressFile` / `writeResults` in the main
module, `processAddresses` in the worker) parses address rows, batches
them into chunks, dispatches chunks to workers and routes the results
into size-capped output partitions plus an unmatched/error channel.

Numbers are modelled as rationals, fallible operations as `Except`/
`Option`, the mutable pipeline globals as an explicit `PipelineState`,
and the asynchronous worker-pool call as a function argument returning
`Except String (List GeocodeResult)`.
-/

namespace Tracts

/-- A coordinate pair `[lon, lat]` as it appears in GeoJSON coordinates. -/
abbrev Point := ℚ × ℚ

/-- GeoJSON geometry of a tract: `Polygon` (a list of rings, ring 0 the
outer boundary, the rest holes) or `MultiPolygon` (a list of such parts). -/
inductive GeoJSONGeometry where
  | polygon (rings : List (List Point))
  | multiPolygon (parts : List (List (List Point)))
deriving DecidableEq

/-- One loaded census tract: `geoid` and its geometry. -/
structure CensusTract where
  geoid : String
  geometry : GeoJSONGeometry
deriving DecidableEq

/-- One entry of the RBush spatial index: a bounding box plus the index
of the owning tract in the `tracts` array. -/
structure RBushItem where
  minX : ℚ
  minY : ℚ
  maxX : ℚ
  maxY : ℚ
  id : Nat
deriving DecidableEq

/-- An axis-aligned bounding box `[minX, minY, maxX, maxY]`. -/
structure BBox where
  minX : ℚ
  minY : ℚ
  maxX : ℚ
  maxY : ℚ
deriving DecidableEq

/-- The data of the spatial index shared with workers: the tract array,
the RBush items (the RBush tree itself is equivalent to searching this
list), and the global bounding box of the whole data set. -/
structure SpatialIndexData where
  tracts : List CensusTract
  items : List RBushItem
  bbox : BBox
deriving DecidableEq

/-- `extractAllCoordinates`: collect every coordinate pair of a geometry
in native ring order (the recursive `processCoordinates` walk). -/
def extractAllCoordinates : GeoJSONGeometry → List Point
  | .polygon rings => rings.flatten
  | .multiPolygon parts => (parts.map List.flatten).flatten

/-- Fold of the running min/max bounds over a coordinate list, as done by
both `extractBounds` and the global-bbox accumulation of the loader. -/
def foldBounds (init : BBox) (coords : List Point) : BBox :=
  coords.foldl
    (fun b c => ⟨min b.minX c.1, min b.minY c.2, max b.maxX c.1, max b.maxY c.2⟩)
    init

/-- `extractBounds`: bounding box of a geometry; `[0, 0, 0, 0]` when the
geometry yields no coordinate pairs. -/
def extractBounds (g : GeoJSONGeometry) : BBox :=
  match extractAllCoordinates g with
  | [] => ⟨0, 0, 0, 0⟩
  | c :: rest => foldBounds ⟨c.1, c.2, c.1, c.2⟩ (c :: rest)

/-! ### turf's booleanPointInPolygon -/

/-- The `onBoundary` test of turf's `inRing` for the edge from
`(xj, yj)` to `(xi, yi)` and the query point `(x, y)`. -/
def isOnBoundary (x y xi yi xj yj : ℚ) : Bool :=
  decide (y * (xi - xj) + yi * (xj - x) + yj * (x - xi) = 0
    ∧ (xi - x) * (xj - x) ≤ 0 ∧ (yi - y) * (yj - y) ≤ 0)

/-- The ray-crossing test of turf's `inRing`: the edge straddles the
horizontal line through the point and the crossing lies strictly to the
right of the point. -/
def edgeCross (x y xi yi xj yj : ℚ) : Bool :=
  (decide (y < yi) != decide (y < yj))
    && decide (x < (xj - xi) * (y - yi) / (yj - yi) + xi)

/-- The loop of turf's `inRing` over edges `(current, previous)`:
early-returns `!ignoreBoundary` on a boundary hit, otherwise toggles the
accumulator on each ray crossing. -/
def inRingGo (x y : ℚ) (ignoreBoundary : Bool) :
    List (Point × Point) → Bool → Bool
  | [], acc => acc
  | (ci, pj) :: rest, acc =>
    if isOnBoundary x y ci.1 ci.2 pj.1 pj.2 then !ignoreBoundary
    else inRingGo x y ignoreBoundary rest
      (if edgeCross x y ci.1 ci.2 pj.1 pj.2 then !acc else acc)

/-- turf drops the duplicated closing coordinate of a ring before the loop. -/
def closeRing (ring : List Point) : List Point :=
  match ring.head?, ring.getLast? with
  | some h, some l => if h = l then ring.dropLast else ring
  | _, _ => ring

/-- The edge list visited by turf's `inRing` loop: element `i` paired
with element `i - 1`, starting with `(ring[0], ring[n-1])`. -/
def ringEdges (ring : List Point) : List (Point × Point) :=
  match ring.getLast? with
  | none => []
  | some l => ring.zip (l :: ring.dropLast)

/-- The value of turf's `inRing pt ring ignoreBoundary` on a nonempty
ring.  On an empty ring the real `inRing` performs an undefined element
access (`ring[0][0]`) and throws; that error path is modelled by
`inRingT` below, which is what the matcher actually evaluates — this
total core is only ever applied to nonempty rings by the model. -/
def inRing (x y : ℚ) (ring : List Point) (ignoreBoundary : Bool) : Bool :=
  inRingGo x y ignoreBoundary (ringEdges (closeRing ring)) false

/-- turf's `inRing` as evaluated by the program: an empty ring makes the
closing-point check read an undefined element and throw. -/
def inRingT (x y : ℚ) (ring : List Point) (ignoreBoundary : Bool) :
    Except String Bool :=
  match ring with
  | [] => .error "undefined ring element access"
  | _ :: _ => .ok (inRing x y ring ignoreBoundary)

/-- Number of adjacent sign changes of a boolean observation along a
list (used to reason about the parity of ray crossings of a ring). -/
def flipCount {α : Type} (p : α → Bool) : List α → Nat
  | [] => 0
  | [_] => 0
  | a :: b :: t => (if p a != p b then 1 else 0) + flipCount p (b :: t)

/-- The value of one part of turf's `booleanPointInPolygon` loop on
degenerate-free input: inside the outer ring and in none of the holes
(holes tested with the negated `ignoreBoundary` flag). -/
def pointInRings (x y : ℚ) (ignoreBoundary : Bool) :
    List (List Point) → Bool
  | [] => false
  | outer :: holes =>
    inRing x y outer ignoreBoundary
      && holes.all fun h => ! inRing x y h (! ignoreBoundary)

/-- The value of turf's `booleanPointInPolygon` on degenerate-free input
at a point `(x, y) = (lon, lat)`.  `booleanPointInPolygonT` below is the
faithful fallible model the matcher evaluates. -/
def booleanPointInPolygon (x y : ℚ) (g : GeoJSONGeometry)
    (ignoreBoundary : Bool) : Bool :=
  match g with
  | .polygon rings => pointInRings x y ignoreBoundary rings
  | .multiPolygon parts => parts.any (pointInRings x y ignoreBoundary)

/-- The hole scan of turf's `booleanPointInPolygon` loop: holes are
tested in order until one contains the point; a hole ring reached by the
scan throws if it is empty (undefined element access in `inRing`). -/
def holeScanT (x y : ℚ) (ignoreBoundary : Bool) :
    List (List Point) → Except String Bool
  | [] => .ok false
  | h :: rest =>
    match inRingT x y h (! ignoreBoundary) with
    | .error e => .error e
    | .ok true => .ok true
    | .ok false => holeScanT x y ignoreBoundary rest

/-- One part of turf's `booleanPointInPolygon` loop as evaluated by the
program: an empty part makes `polys[i][0]` undefined and `inRing` throw;
otherwise the outer ring is tested first and holes only when the point
is inside the outer ring.  A point inside the outer ring but inside a
hole yields `false` (the loop continues with the next part). -/
def pointInRingsT (x y : ℚ) (ignoreBoundary : Bool) :
    List (List Point) → Except String Bool
  | [] => .error "undefined ring element access"
  | outer :: holes =>
    match inRingT x y outer ignoreBoundary with
    | .error e => .error e
    | .ok false => .ok false
    | .ok true =>
      match holeScanT x y ignoreBoundary holes with
      | .error e => .error e
      | .ok inHole => .ok (! inHole)

/-- The part loop of turf's `booleanPointInPolygon`: parts are tested in
order and the loop breaks on the first part that contains the point. -/
def partScanT (x y : ℚ) (ignoreBoundary : Bool) :
    List (List (List Point)) → Except String Bool
  | [] => .ok false
  | part :: rest =>
    match pointInRingsT x y ignoreBoundary part with
    | .error e => .error e
    | .ok true => .ok true
    | .ok false => partScanT x y ignoreBoundary rest

/-- turf's `booleanPointInPolygon` as evaluated by the program,
including its throw on degenerate rings (an empty ring or an empty
multipolygon part reached by the evaluation is an undefined element
access).  This is the call guarded by the try/catch of
`findTractForPoint`. -/
def booleanPointInPolygonT (x y : ℚ) (g : GeoJSONGeometry)
    (ignoreBoundary : Bool) : Except String Bool :=
  match g with
  | .polygon rings => pointInRingsT x y ignoreBoundary rings
  | .multiPolygon parts => partScanT x y ignoreBoundary parts

/-- A ring with at least one coordinate whose closing coordinate repeats
its first (the shape census rings have; on such rings turf's containment
test cannot throw, in any turf release). -/
def ringWellFormed (r : List Point) : Prop :=
  r ≠ [] ∧ r.head? = r.getLast?

/-- Geometries on which turf's containment test is throw-free: every
part has at least an outer ring and all rings are well-formed. -/
def ringsWellFormed : GeoJSONGeometry → Prop
  | .polygon rings => rings ≠ [] ∧ ∀ r ∈ rings, ringWellFormed r
  | .multiPolygon parts =>
    ∀ part ∈ parts, part ≠ [] ∧ ∀ r ∈ part, ringWellFormed r

/-- Membership of a point in an axis-aligned bounding box. -/
def inBBox (x y : ℚ) (b : BBox) : Prop :=
  b.minX ≤ x ∧ x ≤ b.maxX ∧ b.minY ≤ y ∧ y ≤ b.maxY

/-- Strict interiority of a point with respect to one ring group, in the
sense of the even-odd ray cast used by the matcher: strictly inside the
outer ring (its boundary excluded) and strictly outside every hole
(hole boundaries excluded). -/
def strictlyInRings (x y : ℚ) : List (List Point) → Prop
  | [] => False
  | outer :: holes =>
    inRing x y outer true = true ∧ ∀ h ∈ holes, inRing x y h false = false

/-- Strict interiority with respect to a geometry: some part's outer
ring strictly contains the point and none of that part's holes touch
it. -/
def strictlyInterior (x y : ℚ) : GeoJSONGeometry → Prop
  | .polygon rings => strictlyInRings x y rings
  | .multiPolygon parts => ∃ part ∈ parts, strictlyInRings x y part

/-! ### Loading (loadCensusTractShapefiles) -/

/-- One parsed shapefile record: its property table and geometry. -/
structure ShapefileRecord where
  props : List (String × String)
  geometry : GeoJSONGeometry
deriving DecidableEq

/-- The accepted identifier field names. -/
def geoidFieldNames : List String := ["GEOID", "GEOID20", "geoid"]

/-- Auto-detection of the GEOID field: the first property key that is
one of the accepted names. -/
def detectGeoidField (props : List (String × String)) : Option String :=
  (props.find? fun kv => geoidFieldNames.contains kv.1).map Prod.fst

/-- `String(f.properties[geoidField])`: JavaScript stringifies a missing
property to `"undefined"`. -/
def propValue (props : List (String × String)) (field : String) : String :=
  match props.lookup field with
  | some v => v
  | none => "undefined"

/-- The `^\d{11}$` GEOID format check. -/
def isGeoid11 (s : String) : Bool :=
  decide (s.length = 11) && s.toList.all Char.isDigit

/-- The per-source loop of `loadCensusTractShapefiles`: detect the GEOID
field on the first record (warn and break out of the source when there is
none), then keep exactly the records whose stringified identifier passes
the 11-digit format (others are skipped with a warning). -/
def loadSource (recs : List ShapefileRecord) : List CensusTract :=
  match recs with
  | [] => []
  | first :: _ =>
    match detectGeoidField first.props with
    | none => []
    | some field =>
      recs.filterMap fun r =>
        let geoid := propValue r.props field
        if isGeoid11 geoid then some ⟨geoid, r.geometry⟩ else none

/-- The RBush items built from the loaded tract list: index `i` carries
`extractBounds` of tract `i`'s geometry. -/
def mkItems (tracts : List CensusTract) : List RBushItem :=
  tracts.enum.map fun it =>
    let b := extractBounds it.2.geometry
    ⟨b.minX, b.minY, b.maxX, b.maxY, it.1⟩

/-- The global bounding box accumulated over every coordinate of every
loaded tract, starting from `(180, 90, -180, -90)`. -/
def globalBBox (tracts : List CensusTract) : BBox :=
  foldBounds ⟨180, 90, -180, -90⟩
    ((tracts.map fun t => extractAllCoordinates t.geometry).flatten)

/-- `loadCensusTractShapefiles` over the parsed record streams of the
discovered sources: concatenates the per-source loads, fails only when
zero tracts were loaded in total, and otherwise returns the tract list,
the bulk-loaded RBush items and the global bounding box. -/
def loadCensusTractShapefiles (sources : List (List ShapefileRecord)) :
    Except String SpatialIndexData :=
  let tracts := (sources.map loadSource).flatten
  if tracts.length = 0 then
    .error "No census tracts loaded. Run: npm run download-shapefiles"
  else
    .ok ⟨tracts, mkItems tracts, globalBBox tracts⟩

/-! ### Matching (findTractForPoint) -/

/-- The RBush membership test for a degenerate query box at the point:
an item is a candidate when its box contains `(lon, lat)`. -/
def itemContains (lon lat : ℚ) (it : RBushItem) : Bool :=
  decide (it.minX ≤ lon ∧ lon ≤ it.maxX ∧ it.minY ≤ lat ∧ lat ≤ it.maxY)

/-- The candidate loop of `findTractForPoint`: test each candidate in
order (`tracts[item.id]`), return the geoid of the first whose exact
containment test passes; a candidate whose containment test throws is
caught, logged as a warning, and skipped (the `GeometryTestFailure`
path), as is a missing entry. -/
def findTractLoop (lon lat : ℚ) (s : SpatialIndexData) :
    List RBushItem → Option String
  | [] => none
  | it :: rest =>
    match s.tracts.get? it.id with
    | none => findTractLoop lon lat s rest
    | some t =>
      match booleanPointInPolygonT lon lat t.geometry false with
      | .ok true => some t.geoid
      | .ok false => findTractLoop lon lat s rest
      | .error _ => findTractLoop lon lat s rest

/-- `findTractForPoint`: validate the coordinate ranges, reject points
outside the global bounding box, query the index for candidates and
return the geoid of the first candidate whose exact containment test
passes. -/
def findTractForPoint (lat lon : ℚ) (s : SpatialIndexData) : Option String :=
  if lat < -90 ∨ lat > 90 ∨ lon < -180 ∨ lon > 180 then none
  else if lon < s.bbox.minX ∨ lon > s.bbox.maxX
      ∨ lat < s.bbox.minY ∨ lat > s.bbox.maxY then none
  else findTractLoop lon lat s (s.items.filter (itemContains lon lat))

/-- Instrumented variant of `findTractForPoint` recording whether the
spatial index was searched and how many candidate containment tests ran;
its first component is `findTractForPoint`. -/
def findTractForPointProbe (lat lon : ℚ) (s : SpatialIndexData) :
    Option String × Bool × Nat :=
  if lat < -90 ∨ lat > 90 ∨ lon < -180 ∨ lon > 180 then (none, false, 0)
  else if lon < s.bbox.minX ∨ lon > s.bbox.maxX
      ∨ lat < s.bbox.minY ∨ lat > s.bbox.maxY then (none, false, 0)
  else
    let rec loop : List RBushItem → Nat → Option String × Bool × Nat
      | [], n => (none, true, n)
      | it :: rest, n =>
        match s.tracts.get? it.id with
        | none => loop rest n
        | some t =>
          match booleanPointInPolygonT lon lat t.geometry false with
          | .ok true => (some t.geoid, true, n + 1)
          | .ok false => loop rest (n + 1)
          | .error _ => loop rest (n + 1)
    loop (s.items.filter (itemContains lon lat)) 0

/-! ### The worker (processAddresses) -/

/-- One result produced by a worker for one address. -/
structure GeocodeResult where
  address_id : String
  census_tract_geoid : Option String
  error : Option String
deriving DecidableEq

/-- One address handed to a worker; `none` for a latitude or longitude
models JavaScript `NaN`. -/
structure WorkerAddress where
  address_id : String
  latitude : Option ℚ
  longitude : Option ℚ
deriving DecidableEq

/-- The worker's `processAddresses`: per address, `invalid_coordinates`
when a coordinate is NaN, otherwise a result whose geoid is whatever
`findTractForPoint` returns and whose `error` field is never set. -/
def processAddresses (addresses : List WorkerAddress)
    (s : SpatialIndexData) : List GeocodeResult :=
  addresses.map fun addr =>
    match addr.latitude, addr.longitude with
    | some lat, some lon =>
      ⟨addr.address_id, findTractForPoint lat lon s, none⟩
    | _, _ => ⟨addr.address_id, none, some "invalid_coordinates"⟩

/-! ### The sink (writeResults) and dispatcher (processAddressFile) -/

/-- `ROWS_PER_FILE` of the main module. -/
def ROWS_PER_FILE : Nat := 500000

/-- `CHUNK_SIZE` of the main module. -/
def CHUNK_SIZE : Nat := 10000

/-- One output partition file: its numeric suffix, the identity of the
write stream that backs it, and its data rows (the header is not a data
row and is left implicit). -/
structure OutputPartition where
  part : Nat
  handle : Nat
  rows : List String
deriving DecidableEq

/-- The mutable module-level state of the main pipeline: the `stats`
counters, the closed and current output partitions, `outputRowCount`,
`currentOutputPart`, a fresh-handle counter modelling stream creation,
the unmatched/error channel and the log. -/
structure PipelineState where
  totalProcessed : Nat
  totalMatched : Nat
  totalUnmatched : Nat
  totalErrors : Nat
  closedParts : List OutputPartition
  current : Option OutputPartition
  outputRowCount : Nat
  currentOutputPart : Nat
  nextHandle : Nat
  unmatchedChan : List String
  logs : List String
deriving DecidableEq

/-- The state at module initialization: zero counters, no output file
open, `currentOutputPart = 1`. -/
def initState : PipelineState :=
  ⟨0, 0, 0, 0, [], none, 0, 1, 0, [], []⟩

/-- Append one line to the log. -/
def addLog (m : String) (st : PipelineState) : PipelineState :=
  { st with logs := st.logs ++ [m] }

/-- `openNewOutputFile`: end the current stream if one exists, create a
fresh write stream for `tracts_part_<currentOutputPart>`, write its
header, and reset `outputRowCount`. -/
def openNewOutputFile (st : PipelineState) : PipelineState :=
  let closed :=
    match st.current with
    | some p => st.closedParts ++ [p]
    | none => st.closedParts
  { st with
    closedParts := closed
    current := some ⟨st.currentOutputPart, st.nextHandle, []⟩
    nextHandle := st.nextHandle + 1
    outputRowCount := 0
    logs := st.logs ++ ["Opened output file part "
      ++ toString st.currentOutputPart] }

/-- Append one data row to the currently open partition. -/
def appendRow (row : String) (st : PipelineState) : PipelineState :=
  { st with current := st.current.map fun p => { p with rows := p.rows ++ [row] } }

/-- JavaScript truthiness of an optional string (`null`/`undefined` and
the empty string are falsy). -/
def jsTruthy : Option String → Bool
  | none => false
  | some s => ! s.isEmpty

/-- The rotation check at the top of `writeResults`' loop body: when
`outputRowCount` has reached `ROWS_PER_FILE`, bump `currentOutputPart`
and open the next partition. -/
def rotateIfFull (st : PipelineState) : PipelineState :=
  if ROWS_PER_FILE ≤ st.outputRowCount then
    openNewOutputFile { st with currentOutputPart := st.currentOutputPart + 1 }
  else st

/-- The routing part of `writeResults`' loop body: on a truthy geoid
write `id,geoid` to the partition and count a match, otherwise count an
unmatch and write `id,error` to the unmatched channel only when the
`error` field is truthy; finally bump `outputRowCount` and
`totalProcessed`. -/
def writeOneRouted (st : PipelineState) (r : GeocodeResult) : PipelineState :=
  let st :=
    if jsTruthy r.census_tract_geoid then
      { appendRow (r.address_id ++ "," ++ r.census_tract_geoid.getD "") st with
        totalMatched := st.totalMatched + 1 }
    else
      let st := { st with totalUnmatched := st.totalUnmatched + 1 }
      if jsTruthy r.error then
        { st with unmatchedChan :=
            st.unmatchedChan ++ [r.address_id ++ "," ++ r.error.getD ""] }
      else st
  { st with
    outputRowCount := st.outputRowCount + 1
    totalProcessed := st.totalProcessed + 1 }

/-- The body of `writeResults` for one result: the rotation check
followed by the routing of the row. -/
def writeOne (st : PipelineState) (r : GeocodeResult) : PipelineState :=
  writeOneRouted (rotateIfFull st) r

/-- `writeResults`: open the first output file if none is open yet, then
process each result of the batch in order. -/
def writeResults (results : List GeocodeResult) (st : PipelineState) :
    PipelineState :=
  let st := if st.current.isNone then openNewOutputFile st else st
  results.foldl writeOne st

/-- The worker-pool call for one chunk, as seen by the coordinator: it
either resolves with the chunk's results or rejects with a message. -/
abbrev Dispatch := List WorkerAddress → Except String (List GeocodeResult)

/-- Dispatch one chunk and handle the outcome as `processAddressFile`
does: on success hand the results to `writeResults`; on failure only
log the error (`finalChunk` selects the log text of the end-of-stream
handler). -/
def flushChunk (d : Dispatch) (finalChunk : Bool)
    (buf : List WorkerAddress) (st : PipelineState) : PipelineState :=
  match d buf with
  | .ok results => writeResults results st
  | .error e =>
    addLog ((if finalChunk then "Error processing final chunk: "
      else "Error processing chunk: ") ++ e) st

/-- The coordinate validation of the dispatcher (the non-NaN part). -/
def invalidCoords (lat lon : ℚ) : Bool :=
  decide (lat < -90 ∨ lat > 90 ∨ lon < -180 ∨ lon > 180)

/-- One input row of an address CSV file; `none` for a coordinate models
`parseFloat` returning `NaN`. -/
structure InputRecord where
  address_id : String
  latitude : Option ℚ
  longitude : Option ℚ
deriving DecidableEq

/-- The worker address built from a parsed input record. -/
def toWorkerAddress (r : InputRecord) : WorkerAddress :=
  ⟨r.address_id, r.latitude, r.longitude⟩

/-- A record that passes the dispatcher's coordinate validation and so
joins a chunk. -/
def recordValid (r : InputRecord) : Prop :=
  ∃ lat lon, r.latitude = some lat ∧ r.longitude = some lon ∧
    invalidCoords lat lon = false

/-- One step of the dispatcher's record loop: an unparseable or
out-of-range coordinate is recorded directly as an `invalid_coordinates`
error; otherwise the row joins the chunk buffer, and a full buffer is
dispatched. -/
def stepRecord (chunkSize : Nat) (d : Dispatch)
    (acc : PipelineState × List WorkerAddress) (r : InputRecord) :
    PipelineState × List WorkerAddress :=
  let st := acc.1
  let buf := acc.2
  match r.latitude, r.longitude with
  | some lat, some lon =>
    if invalidCoords lat lon then
      ({ st with
          totalErrors := st.totalErrors + 1
          unmatchedChan :=
            st.unmatchedChan ++ [r.address_id ++ ",invalid_coordinates"] },
        buf)
    else
      let buf := buf ++ [⟨r.address_id, some lat, some lon⟩]
      if chunkSize ≤ buf.length then (flushChunk d false buf st, [])
      else (st, buf)
  | _, _ =>
    ({ st with
        totalErrors := st.totalErrors + 1
        unmatchedChan :=
          st.unmatchedChan ++ [r.address_id ++ ",invalid_coordinates"] },
      buf)

/-- `processAddressFile` over the parsed records of one address file:
fold the record loop over the stream, then flush any remaining partial
chunk from the end-of-stream handler.  The chunk size is a parameter;
the program instantiates it with `CHUNK_SIZE`. -/
def processAddressFile (chunkSize : Nat) (d : Dispatch)
    (records : List InputRecord) (st : PipelineState) : PipelineState :=
  let res := records.foldl (stepRecord chunkSize d) (st, [])
  if 0 < res.2.length then flushChunk d true res.2 res.1 else res.1

/-- The processing phase of `main`: open the first output file, then
process each discovered address file in order. -/
def runPipeline (chunkSize : Nat) (d : Dispatch)
    (files : List (List InputRecord)) : PipelineState :=
  files.foldl (fun st f => processAddressFile chunkSize d f st)
    (openNewOutputFile initState)

/-- All partitions of a state, closed ones first, then the open one. -/
def allParts (st : PipelineState) : List OutputPartition :=
  st.closedParts ++ st.current.toList

/-- Total number of data rows across all output partitions. -/
def partsRowCount (st : PipelineState) : Nat :=
  ((allParts st).map fun p => p.rows.length).sum

/-- The sink bookkeeping invariant tying the summary counters to the
rows actually routed: `totalProcessed` splits into matched plus
unmatched, and `totalMatched` equals the data rows written across all
output partitions. -/
def countersInv (st : PipelineState) : Prop :=
  st.totalProcessed = st.totalMatched + st.totalUnmatched ∧
  st.totalMatched = partsRowCount st ∧
  st.current.isSome = true

/-- The partition-structure invariant: every partition holds at most
`ROWS_PER_FILE` data rows, partition suffixes are the consecutive run
`1, 2, …` and stream handles are the consecutive run `0, 1, …` (so no
handle is ever reused), and the rotation bookkeeping is consistent. -/
def partitionInv (st : PipelineState) : Prop :=
  (∀ p ∈ st.closedParts, p.rows.length ≤ ROWS_PER_FILE) ∧
  (∀ p, st.current = some p → p.rows.length ≤ st.outputRowCount) ∧
  st.outputRowCount ≤ ROWS_PER_FILE ∧
  (allParts st).map OutputPartition.part = List.range' 1 (allParts st).length ∧
  (allParts st).map OutputPartition.handle = List.range (allParts st).length ∧
  (∀ p, st.current = some p →
    st.currentOutputPart = (allParts st).length ∧
    st.nextHandle = (allParts st).length) ∧
  st.current.isSome = true

/-! ### Concrete demonstration data -/

/-- The closed unit square, the spec's concrete test polygon. -/
def unitSquareRing : List Point := [(0, 0), (0, 1), (1, 1), (1, 0), (0, 0)]

/-- A record carrying GEOID `00000000001` on the unit square. -/
def demoRecord : ShapefileRecord :=
  ⟨[("GEOID", "00000000001")], .polygon [unitSquareRing]⟩

/-- A record carrying GEOID `00000000002` on the same unit square. -/
def demoRecordOverlap : ShapefileRecord :=
  ⟨[("GEOID", "00000000002")], .polygon [unitSquareRing]⟩

/-- A record with no recognized identifier field. -/
def demoRecordNoField : ShapefileRecord :=
  ⟨[("NAME", "x")], .polygon [unitSquareRing]⟩

/-- A record with a valid identifier but a geometry with no rings. -/
def demoRecordNoCoords : ShapefileRecord :=
  ⟨[("GEOID", "00000000003")], .polygon []⟩

/-- The tract loaded from `demoRecord`. -/
def demoTract : CensusTract := ⟨"00000000001", .polygon [unitSquareRing]⟩

/-- The tract loaded from `demoRecordOverlap`. -/
def demoTractOverlap : CensusTract := ⟨"00000000002", .polygon [unitSquareRing]⟩

/-- The index built by loading `[[demoRecord]]`. -/
def demoIndex : SpatialIndexData :=
  ⟨[demoTract], [⟨0, 0, 1, 1, 0⟩], ⟨0, 0, 1, 1⟩⟩

/-- The index built by loading two exactly overlapping tracts. -/
def demoIndexOverlap : SpatialIndexData :=
  ⟨[demoTract, demoTractOverlap], [⟨0, 0, 1, 1, 0⟩, ⟨0, 0, 1, 1, 1⟩],
    ⟨0, 0, 1, 1⟩⟩

/-- A dispatch that runs the worker in-process over `demoIndex`. -/
def demoDispatch : Dispatch := fun chunk => .ok (processAddresses chunk demoIndex)

/-- A dispatch whose promise always rejects, modelling a worker-pool
failure for the whole chunk. -/
def failingDispatch : Dispatch := fun _ => .error "boom"

/-! ## Helper lemmas -/

theorem load_ok_spec {sources : List (List ShapefileRecord)}
    {s : SpatialIndexData}
    (h : loadCensusTractShapefiles sources = .ok s) :
    s.tracts = (sources.map loadSource).flatten ∧
    s.items = mkItems s.tracts ∧ s.bbox = globalBBox s.tracts := by
  simp only [loadCensusTractShapefiles] at h
  split at h
  · exact absurd h (by simp)
  · cases h
    exact ⟨rfl, rfl, rfl⟩

theorem mkItems_get? (tracts : List CensusTract) (i : Nat) :
    (mkItems tracts).get? i = (tracts.get? i).map fun t =>
      ⟨(extractBounds t.geometry).minX, (extractBounds t.geometry).minY,
        (extractBounds t.geometry).maxX, (extractBounds t.geometry).maxY, i⟩ := by
  simp only [mkItems, List.get?_eq_getElem?, List.getElem?_map,
    List.getElem?_enum]
  cases tracts[i]? <;> rfl

theorem loadSource_geoid11 {recs : List ShapefileRecord} {t : CensusTract}
    (h : t ∈ loadSource recs) : isGeoid11 t.geoid = true := by
  cases recs with
  | nil => simp [loadSource] at h
  | cons first rest =>
    rw [loadSource] at h
    cases hd : detectGeoidField first.props with
    | none => rw [hd] at h; simp at h
    | some field =>
      rw [hd, List.mem_filterMap] at h
      obtain ⟨r, _, hr⟩ := h
      simp only [] at hr
      split at hr
      next hg => cases hr; exact hg
      next => cases hr

theorem load_tracts_geoid11 {sources : List (List ShapefileRecord)}
    {s : SpatialIndexData} {t : CensusTract}
    (hload : loadCensusTractShapefiles sources = .ok s)
    (ht : t ∈ s.tracts) : isGeoid11 t.geoid = true := by
  rw [(load_ok_spec hload).1, List.mem_flatten] at ht
  obtain ⟨l, hl, htl⟩ := ht
  rw [List.mem_map] at hl
  obtain ⟨src, _, rfl⟩ := hl
  exact loadSource_geoid11 htl

theorem findTract_none_of_out_of_range {lat lon : ℚ} {s : SpatialIndexData}
    (h : lat < -90 ∨ lat > 90 ∨ lon < -180 ∨ lon > 180) :
    findTractForPoint lat lon s = none := by
  unfold findTractForPoint
  rw [if_pos h]

theorem findTractLoop_some {lon lat : ℚ} {s : SpatialIndexData}
    {l : List RBushItem} {g : String}
    (h : findTractLoop lon lat s l = some g) :
    ∃ it ∈ l, ∃ t : CensusTract, s.tracts.get? it.id = some t ∧
      booleanPointInPolygonT lon lat t.geometry false = .ok true ∧
      g = t.geoid := by
  induction l with
  | nil => cases h
  | cons it rest ih =>
    rw [findTractLoop] at h
    cases hg : s.tracts.get? it.id with
    | none =>
      rw [hg] at h
      obtain ⟨it2, hm, t, ht, hb, hgeq⟩ := ih h
      exact ⟨it2, List.mem_cons_of_mem _ hm, t, ht, hb, hgeq⟩
    | some t =>
      rw [hg] at h
      have h2 : (match booleanPointInPolygonT lon lat t.geometry false with
          | .ok true => some t.geoid
          | .ok false => findTractLoop lon lat s rest
          | .error _ => findTractLoop lon lat s rest) = some g := h
      cases hb : booleanPointInPolygonT lon lat t.geometry false with
      | error e =>
        rw [hb] at h2
        have h3 : findTractLoop lon lat s rest = some g := h2
        obtain ⟨it2, hm, t2, ht2, hb2, hgeq⟩ := ih h3
        exact ⟨it2, List.mem_cons_of_mem _ hm, t2, ht2, hb2, hgeq⟩
      | ok b =>
        rw [hb] at h2
        cases b with
        | false =>
          have h3 : findTractLoop lon lat s rest = some g := h2
          obtain ⟨it2, hm, t2, ht2, hb2, hgeq⟩ := ih h3
          exact ⟨it2, List.mem_cons_of_mem _ hm, t2, ht2, hb2, hgeq⟩
        | true =>
          have h3 : some t.geoid = some g := h2
          exact ⟨it, List.mem_cons_self _ _, t, hg, hb,
            (Option.some.inj h3).symm⟩

theorem findTractLoop_skip {lon lat : ℚ} {s : SpatialIndexData}
    {l1 : List RBushItem} (l2 : List RBushItem)
    (h : ∀ it ∈ l1, ∀ t : CensusTract, s.tracts.get? it.id = some t →
      booleanPointInPolygonT lon lat t.geometry false ≠ .ok true) :
    findTractLoop lon lat s (l1 ++ l2) = findTractLoop lon lat s l2 := by
  induction l1 with
  | nil => rfl
  | cons it rest ih =>
    rw [List.cons_append, findTractLoop]
    cases hg : s.tracts.get? it.id with
    | none => exact ih fun i hi => h i (List.mem_cons_of_mem _ hi)
    | some t =>
      show (match booleanPointInPolygonT lon lat t.geometry false with
          | .ok true => some t.geoid
          | .ok false => findTractLoop lon lat s (rest ++ l2)
          | .error _ => findTractLoop lon lat s (rest ++ l2)) =
        findTractLoop lon lat s l2
      cases hb : booleanPointInPolygonT lon lat t.geometry false with
      | error e =>
        show findTractLoop lon lat s (rest ++ l2) = findTractLoop lon lat s l2
        exact ih fun i hi => h i (List.mem_cons_of_mem _ hi)
      | ok b =>
        cases b with
        | false =>
          show findTractLoop lon lat s (rest ++ l2) =
            findTractLoop lon lat s l2
          exact ih fun i hi => h i (List.mem_cons_of_mem _ hi)
        | true => exact absurd hb (h it (List.mem_cons_self _ _) t hg)

theorem openNew_counters (st : PipelineState) :
    (openNewOutputFile st).totalProcessed = st.totalProcessed ∧
    (openNewOutputFile st).totalMatched = st.totalMatched ∧
    (openNewOutputFile st).totalUnmatched = st.totalUnmatched ∧
    (openNewOutputFile st).totalErrors = st.totalErrors ∧
    (openNewOutputFile st).unmatchedChan = st.unmatchedChan :=
  ⟨rfl, rfl, rfl, rfl, rfl⟩

theorem openNew_partsRowCount (st : PipelineState) :
    partsRowCount (openNewOutputFile st) = partsRowCount st := by
  cases hcur : st.current <;>
    simp [openNewOutputFile, hcur, partsRowCount, allParts]

theorem writeOne_unwritten (r : GeocodeResult) (st : PipelineState)
    (hg : jsTruthy r.census_tract_geoid = false)
    (he : jsTruthy r.error = false) :
    (writeOne st r).totalUnmatched = st.totalUnmatched + 1 ∧
    (writeOne st r).totalMatched = st.totalMatched ∧
    partsRowCount (writeOne st r) = partsRowCount st ∧
    (writeOne st r).unmatchedChan = st.unmatchedChan := by
  unfold writeOne writeOneRouted rotateIfFull
  by_cases hrot : ROWS_PER_FILE ≤ st.outputRowCount <;>
    cases hcur : st.current <;>
    simp [hrot, hg, he, hcur, partsRowCount, allParts, openNewOutputFile]

/-! ## Claim C8 -/

/-- C8: for every latitude outside `[-90, 90]` or longitude outside
`[-180, 180]`, `findTractForPoint` returns no-match (and, per the
instrumented variant, performs no candidate lookup and no containment
test); the embedding is total, so no exception can be raised. -/
theorem c8_out_of_range_rejected_without_lookup (lat lon : ℚ)
    (s : SpatialIndexData)
    (h : lat < -90 ∨ lat > 90 ∨ lon < -180 ∨ lon > 180) :
    findTractForPoint lat lon s = none ∧
    findTractForPointProbe lat lon s = (none, false, 0) := by
  refine ⟨findTract_none_of_out_of_range h, ?_⟩
  unfold findTractForPointProbe
  rw [if_pos h]

/-- Witness for C8 at latitude 91. -/
theorem c8_out_of_range_rejected_without_lookup_witness :
    findTractForPoint 91 0 demoIndex = none ∧
    findTractForPointProbe 91 0 demoIndex = (none, false, 0) :=
  c8_out_of_range_rejected_without_lookup 91 0 demoIndex (by norm_num)

/-! ## Claim C9 -/

/-- C9: every identifier returned by `findTractForPoint` against an index
built by `loadCensusTractShapefiles` matches the 11-digit format
`^\d{11}$`. -/
theorem c9_returned_geoid_is_11_digits
    (sources : List (List ShapefileRecord)) (s : SpatialIndexData)
    (lat lon : ℚ) (g : String)
    (hload : loadCensusTractShapefiles sources = .ok s)
    (hfind : findTractForPoint lat lon s = some g) :
    isGeoid11 g = true := by
  unfold findTractForPoint at hfind
  split at hfind
  · cases hfind
  split at hfind
  · cases hfind
  obtain ⟨it, _, t, ht, _, hgeq⟩ := findTractLoop_some hfind
  rw [hgeq]
  exact load_tracts_geoid11 hload (List.get?_mem ht)

/-- Witness for C9: the demo load and the matched point `(0.5, 0.5)`. -/
theorem c9_returned_geoid_is_11_digits_witness :
    isGeoid11 "00000000001" = true :=
  c9_returned_geoid_is_11_digits [[demoRecord]] demoIndex (1/2) (1/2)
    "00000000001" (by with_unfolding_all rfl) (by with_unfolding_all rfl)

/-! ## Claim C2 -/

/-- C2 counterexample: a result with no geoid and no error reason (the
worker's plain no-match) is counted as unmatched but written to neither
the output partition nor the unmatched/error channel, so it is silently
dropped from both channels, contrary to the claim. -/
theorem c2_counterexample_plain_no_match_dropped :
    (writeResults [⟨"a7", none, none⟩] (openNewOutputFile initState)).totalUnmatched = 1 ∧
    (writeResults [⟨"a7", none, none⟩] (openNewOutputFile initState)).unmatchedChan = [] ∧
    partsRowCount (writeResults [⟨"a7", none, none⟩] (openNewOutputFile initState)) = 0 := by
  decide

/-- C2 amended: the sink appends `id,geoid` to the current partition for
a truthy geoid; a geoid-less result is counted as unmatched and is
appended (as `id,reason`) to the unmatched/error channel only when it
carries a truthy error reason — a geoid-less result without an error
reason is counted but written to neither channel. -/
theorem c2_sink_routing (st : PipelineState) (p : OutputPartition)
    (r : GeocodeResult) (hc : st.current = some p)
    (hcount : st.outputRowCount < ROWS_PER_FILE) :
    (jsTruthy r.census_tract_geoid = true →
      (writeResults [r] st).current =
        some { p with rows := p.rows ++
          [r.address_id ++ "," ++ r.census_tract_geoid.getD ""] } ∧
      (writeResults [r] st).totalMatched = st.totalMatched + 1 ∧
      (writeResults [r] st).unmatchedChan = st.unmatchedChan) ∧
    (jsTruthy r.census_tract_geoid = false →
      (writeResults [r] st).totalUnmatched = st.totalUnmatched + 1 ∧
      (writeResults [r] st).current = some p ∧
      (jsTruthy r.error = true →
        (writeResults [r] st).unmatchedChan =
          st.unmatchedChan ++ [r.address_id ++ "," ++ r.error.getD ""]) ∧
      (jsTruthy r.error = false →
        (writeResults [r] st).unmatchedChan = st.unmatchedChan)) := by
  have hnot : ¬ ROWS_PER_FILE ≤ st.outputRowCount := Nat.not_le.mpr hcount
  have hsome : st.current.isNone = false := by rw [hc]; rfl
  constructor
  · intro hg
    simp [writeResults, writeOne, writeOneRouted, rotateIfFull, hsome, hnot,
      hg, appendRow, hc]
  · intro hg
    refine ⟨?_, ?_, ?_, ?_⟩ <;>
      first
      | (intro he
         simp [writeResults, writeOne, writeOneRouted, rotateIfFull, hsome,
           hnot, hg, he, appendRow, hc])
      | (cases he : jsTruthy r.error <;>
          simp [writeResults, writeOne, writeOneRouted, rotateIfFull, hsome,
            hnot, hg, he, appendRow, hc])

/-- Witness for C2 at a concrete matched result. -/
theorem c2_sink_routing_witness :
    (writeResults [⟨"a1", some "00000000001", none⟩] (openNewOutputFile initState)).current =
      some ⟨1, 0, ["a1,00000000001"]⟩ ∧
    (writeResults [⟨"a1", some "00000000001", none⟩] (openNewOutputFile initState)).totalMatched = 1 := by
  have h := c2_sink_routing (openNewOutputFile initState) ⟨1, 0, []⟩
    ⟨"a1", some "00000000001", none⟩ (by decide) (by decide)
  have h2 := h.1 (by decide)
  exact ⟨h2.1, h2.2.1⟩

/-! ## Claim C10 -/

/-- C10: for an address whose coordinates parse to finite numbers outside
the valid ranges, the worker produces a result with no geoid and no error
reason, and the sink then counts it as unmatched while appending it to
neither the output partitions nor the unmatched/error channel. -/
theorem c10_out_of_range_counted_but_unwritten (a : WorkerAddress)
    (lat lon : ℚ) (s : SpatialIndexData) (st : PipelineState)
    (hla : a.latitude = some lat) (hlo : a.longitude = some lon)
    (hrange : lat < -90 ∨ lat > 90 ∨ lon < -180 ∨ lon > 180) :
    processAddresses [a] s = [⟨a.address_id, none, none⟩] ∧
    (writeResults (processAddresses [a] s) st).totalUnmatched = st.totalUnmatched + 1 ∧
    (writeResults (processAddresses [a] s) st).totalMatched = st.totalMatched ∧
    partsRowCount (writeResults (processAddresses [a] s) st) = partsRowCount st ∧
    (writeResults (processAddresses [a] s) st).unmatchedChan = st.unmatchedChan := by
  have hw : processAddresses [a] s = [⟨a.address_id, none, none⟩] := by
    simp [processAddresses, hla, hlo, findTract_none_of_out_of_range hrange]
  refine ⟨hw, ?_⟩
  rw [hw]
  simp only [writeResults, List.foldl_cons, List.foldl_nil]
  by_cases hnone : st.current.isNone = true
  · simp only [hnone, if_true]
    obtain ⟨e1, e2, e3, e4⟩ := writeOne_unwritten
      ⟨a.address_id, none, none⟩ (openNewOutputFile st) rfl rfl
    exact ⟨by rw [e1, (openNew_counters st).2.2.1],
      by rw [e2, (openNew_counters st).2.1],
      by rw [e3, openNew_partsRowCount],
      by rw [e4, (openNew_counters st).2.2.2.2]⟩
  · rw [Bool.not_eq_true] at hnone
    simp only [hnone, Bool.false_eq_true, if_false]
    obtain ⟨e1, e2, e3, e4⟩ := writeOne_unwritten
      ⟨a.address_id, none, none⟩ st rfl rfl
    exact ⟨by rw [e1], by rw [e2], by rw [e3], by rw [e4]⟩


/-! ## Counter bookkeeping (towards C1) -/

theorem appendRow_partsRowCount {st : PipelineState} {p : OutputPartition}
    (hc : st.current = some p) (row : String) :
    partsRowCount (appendRow row st) = partsRowCount st + 1 := by
  simp [appendRow, partsRowCount, allParts, hc]
  omega

theorem rotateIfFull_counters (st : PipelineState) :
    (rotateIfFull st).totalProcessed = st.totalProcessed ∧
    (rotateIfFull st).totalMatched = st.totalMatched ∧
    (rotateIfFull st).totalUnmatched = st.totalUnmatched ∧
    (rotateIfFull st).totalErrors = st.totalErrors ∧
    (rotateIfFull st).unmatchedChan = st.unmatchedChan := by
  unfold rotateIfFull
  split <;> exact ⟨rfl, rfl, rfl, rfl, rfl⟩

theorem rotateIfFull_partsRowCount (st : PipelineState) :
    partsRowCount (rotateIfFull st) = partsRowCount st := by
  unfold rotateIfFull
  split
  · exact (openNew_partsRowCount _).trans rfl
  · rfl

theorem rotateIfFull_isSome {st : PipelineState}
    (h : st.current.isSome = true) :
    (rotateIfFull st).current.isSome = true := by
  unfold rotateIfFull
  split
  · rfl
  · exact h

theorem countersInv_writeOne (r : GeocodeResult) {st : PipelineState}
    (h : countersInv st) : countersInv (writeOne st r) := by
  obtain ⟨h1, h2, h3⟩ := h
  obtain ⟨c1, c2, c3, _, _⟩ := rotateIfFull_counters st
  have hpc := rotateIfFull_partsRowCount st
  have hs := rotateIfFull_isSome h3
  obtain ⟨p, hp⟩ := Option.isSome_iff_exists.mp hs
  unfold writeOne writeOneRouted
  by_cases hg : jsTruthy r.census_tract_geoid = true
  · simp only [hg, if_true]
    refine ⟨?_, ?_, ?_⟩
    · show (rotateIfFull st).totalProcessed + 1 =
        ((rotateIfFull st).totalMatched + 1) + (rotateIfFull st).totalUnmatched
      rw [c1, c2, c3]
      omega
    · show (rotateIfFull st).totalMatched + 1 =
        partsRowCount (appendRow _ (rotateIfFull st))
      rw [appendRow_partsRowCount hp, hpc, c2, h2]
    · show ((appendRow _ (rotateIfFull st)).current).isSome = true
      simp [appendRow, hp]
  · rw [Bool.not_eq_true] at hg
    simp only [hg, Bool.false_eq_true, if_false]
    by_cases he : jsTruthy r.error = true
    · simp only [he, if_true]
      refine ⟨?_, ?_, ?_⟩
      · show (rotateIfFull st).totalProcessed + 1 =
          (rotateIfFull st).totalMatched + ((rotateIfFull st).totalUnmatched + 1)
        rw [c1, c2, c3]
        omega
      · show (rotateIfFull st).totalMatched = partsRowCount (rotateIfFull st)
        rw [hpc, c2, h2]
      · show ((rotateIfFull st).current).isSome = true
        exact hs
    · rw [Bool.not_eq_true] at he
      simp only [he, Bool.false_eq_true, if_false]
      refine ⟨?_, ?_, ?_⟩
      · show (rotateIfFull st).totalProcessed + 1 =
          (rotateIfFull st).totalMatched + ((rotateIfFull st).totalUnmatched + 1)
        rw [c1, c2, c3]
        omega
      · show (rotateIfFull st).totalMatched = partsRowCount (rotateIfFull st)
        rw [hpc, c2, h2]
      · exact hs

theorem countersInv_foldl (rs : List GeocodeResult) {st : PipelineState}
    (h : countersInv st) : countersInv (rs.foldl writeOne st) := by
  induction rs generalizing st with
  | nil => exact h
  | cons r rs ih => exact ih (countersInv_writeOne r h)

theorem countersInv_writeResults (rs : List GeocodeResult)
    {st : PipelineState} (h : countersInv st) :
    countersInv (writeResults rs st) := by
  unfold writeResults
  obtain ⟨p, hp⟩ := Option.isSome_iff_exists.mp h.2.2
  rw [hp]
  exact countersInv_foldl rs h

theorem countersInv_addLog (m : String) {st : PipelineState}
    (h : countersInv st) : countersInv (addLog m st) := h

theorem countersInv_flushChunk (d : Dispatch) (fin : Bool)
    (buf : List WorkerAddress) {st : PipelineState} (h : countersInv st) :
    countersInv (flushChunk d fin buf st) := by
  unfold flushChunk
  cases d buf with
  | ok results => exact countersInv_writeResults results h
  | error e => exact countersInv_addLog _ h

theorem countersInv_stepRecord (cs : Nat) (d : Dispatch)
    (acc : PipelineState × List WorkerAddress) (r : InputRecord)
    (h : countersInv acc.1) : countersInv (stepRecord cs d acc r).1 := by
  unfold stepRecord
  cases hla : r.latitude with
  | none => exact h
  | some lat =>
    cases hlo : r.longitude with
    | none => exact h
    | some lon =>
      by_cases hv : invalidCoords lat lon = true
      · simp only [hv, if_true]
        exact h
      · rw [Bool.not_eq_true] at hv
        simp only [hv, Bool.false_eq_true, if_false]
        by_cases hfull : cs ≤ acc.2.length + 1
        · have : cs ≤ (acc.2 ++ [(⟨r.address_id, some lat, some lon⟩ : WorkerAddress)]).length := by
            simpa using hfull
          simp only [this, if_true]
          exact countersInv_flushChunk d false _ h
        · have : ¬ cs ≤ (acc.2 ++ [(⟨r.address_id, some lat, some lon⟩ : WorkerAddress)]).length := by
            simpa using hfull
          simp only [this, if_false]
          exact h

theorem countersInv_stepFold (cs : Nat) (d : Dispatch)
    (recs : List InputRecord) (acc : PipelineState × List WorkerAddress)
    (h : countersInv acc.1) :
    countersInv (recs.foldl (stepRecord cs d) acc).1 := by
  induction recs generalizing acc with
  | nil => exact h
  | cons r recs ih => exact ih _ (countersInv_stepRecord cs d acc r h)

theorem countersInv_processAddressFile (cs : Nat) (d : Dispatch)
    (records : List InputRecord) {st : PipelineState} (h : countersInv st) :
    countersInv (processAddressFile cs d records st) := by
  unfold processAddressFile
  have hf := countersInv_stepFold cs d records (st, []) h
  by_cases hl : 0 < (records.foldl (stepRecord cs d) (st, [])).2.length
  · simp only [hl, if_true]
    exact countersInv_flushChunk d true _ hf
  · simp only [hl, if_false]
    exact hf

theorem countersInv_runPipeline (cs : Nat) (d : Dispatch)
    (files : List (List InputRecord)) :
    countersInv (runPipeline cs d files) := by
  unfold runPipeline
  have hbase : countersInv (openNewOutputFile initState) := by
    refine ⟨rfl, ?_, rfl⟩
    simp [openNewOutputFile, initState, partsRowCount, allParts]
  generalize openNewOutputFile initState = st0 at hbase ⊢
  induction files generalizing st0 with
  | nil => exact hbase
  | cons f files ih =>
    exact ih _ (countersInv_processAddressFile cs d f hbase)

/-! ## Claim C1 -/

/-- C1 counterexample: a run over the single row `(a2, 999, 0)` records
an `invalid_coordinates` error without counting the row as processed, so
total processed ≠ matched + unmatched + errored — the errored rows are
not part of `totalProcessed`. -/
theorem c1_counterexample_errors_not_processed :
    ¬ ((runPipeline 1 failingDispatch [[⟨"a2", some 999, some 0⟩]]).totalProcessed =
       (runPipeline 1 failingDispatch [[⟨"a2", some 999, some 0⟩]]).totalMatched +
       (runPipeline 1 failingDispatch [[⟨"a2", some 999, some 0⟩]]).totalUnmatched +
       (runPipeline 1 failingDispatch [[⟨"a2", some 999, some 0⟩]]).totalErrors) := by
  have h1 : (runPipeline 1 failingDispatch [[⟨"a2", some 999, some 0⟩]]).totalProcessed = 0 := by
    with_unfolding_all rfl
  have h2 : (runPipeline 1 failingDispatch [[⟨"a2", some 999, some 0⟩]]).totalMatched = 0 := by
    with_unfolding_all rfl
  have h3 : (runPipeline 1 failingDispatch [[⟨"a2", some 999, some 0⟩]]).totalUnmatched = 0 := by
    with_unfolding_all rfl
  have h4 : (runPipeline 1 failingDispatch [[⟨"a2", some 999, some 0⟩]]).totalErrors = 1 := by
    with_unfolding_all rfl
  rw [h1, h2, h3, h4]
  decide

/-- C1 amended: for every run, over any chunk size and any dispatch
behaviour, total processed = total matched + total unmatched, and total
matched equals the number of data rows written across all output
partitions; rows recorded as errors by the dispatcher (such as
`invalid_coordinates`) are counted only in `totalErrors` and are not
part of `totalProcessed`. -/
theorem c1_processed_splits_into_matched_unmatched (cs : Nat) (d : Dispatch)
    (files : List (List InputRecord)) :
    (runPipeline cs d files).totalProcessed =
      (runPipeline cs d files).totalMatched +
        (runPipeline cs d files).totalUnmatched ∧
    (runPipeline cs d files).totalMatched =
      partsRowCount (runPipeline cs d files) :=
  ⟨(countersInv_runPipeline cs d files).1,
   (countersInv_runPipeline cs d files).2.1⟩

/-! ## Partition structure (towards C7) -/

theorem allParts_of_current_some {st : PipelineState} {p : OutputPartition}
    (hp : st.current = some p) :
    allParts st = st.closedParts ++ [p] := by
  simp [allParts, hp]

theorem partitionInv_rotateIfFull {st : PipelineState} (h : partitionInv st) :
    partitionInv (rotateIfFull st) ∧
    (rotateIfFull st).outputRowCount < ROWS_PER_FILE := by
  obtain ⟨hclosed, hcur, hcount, hparts, hhandles, hbook, hsome⟩ := h
  obtain ⟨p, hp⟩ := Option.isSome_iff_exists.mp hsome
  obtain ⟨hcop, hnh⟩ := hbook p hp
  have hall := allParts_of_current_some hp
  unfold rotateIfFull
  by_cases hrot : ROWS_PER_FILE ≤ st.outputRowCount
  · simp only [hrot, if_true]
    have heq : openNewOutputFile
        { st with currentOutputPart := st.currentOutputPart + 1 } =
        { st with
          closedParts := st.closedParts ++ [p]
          current := some ⟨st.currentOutputPart + 1, st.nextHandle, []⟩
          nextHandle := st.nextHandle + 1
          outputRowCount := 0
          currentOutputPart := st.currentOutputPart + 1
          logs := st.logs ++ ["Opened output file part "
            ++ toString (st.currentOutputPart + 1)] } := by
      simp [openNewOutputFile, hp]
    rw [heq]
    have hall2 : allParts { st with
          closedParts := st.closedParts ++ [p]
          current := some ⟨st.currentOutputPart + 1, st.nextHandle, []⟩
          nextHandle := st.nextHandle + 1
          outputRowCount := 0
          currentOutputPart := st.currentOutputPart + 1
          logs := st.logs ++ ["Opened output file part "
            ++ toString (st.currentOutputPart + 1)] } =
        (st.closedParts ++ [p]) ++
          [⟨st.currentOutputPart + 1, st.nextHandle, []⟩] := by
      simp [allParts]
    have hlen : (allParts st).length = st.closedParts.length + 1 := by
      rw [hall]
      simp
    refine ⟨⟨?_, ?_, ?_, ?_, ?_, ?_, rfl⟩, ?_⟩
    · intro q hq
      rcases List.mem_append.mp hq with hq | hq
      · exact hclosed q hq
      · rw [List.mem_singleton.mp hq]
        exact le_trans (hcur p hp) hcount
    · intro q hq
      cases hq
      simp
    · simp [ROWS_PER_FILE]
    · rw [hall2]
      rw [List.map_append, ← hall, hparts]
      have hlen2 : (allParts st ++
          [(⟨st.currentOutputPart + 1, st.nextHandle, []⟩ : OutputPartition)]).length =
          (allParts st).length + 1 := by simp
      rw [hlen2, List.range'_concat]
      simp [hcop, Nat.add_comm]
    · rw [hall2]
      rw [List.map_append, ← hall, hhandles]
      have hlen2 : (allParts st ++
          [(⟨st.currentOutputPart + 1, st.nextHandle, []⟩ : OutputPartition)]).length =
          (allParts st).length + 1 := by simp
      rw [hlen2, List.range_succ]
      simp [hnh]
    · intro q hq
      cases hq
      rw [hall2]
      have h1 : st.currentOutputPart = st.closedParts.length + 1 := by
        rw [hcop, hall]
        simp
      have h2 : st.nextHandle = st.closedParts.length + 1 := by
        rw [hnh, hall]
        simp
      constructor
      · show st.currentOutputPart + 1 = _
        simp only [List.length_append, List.length_cons, List.length_nil]
        omega
      · show st.nextHandle + 1 = _
        simp only [List.length_append, List.length_cons, List.length_nil]
        omega
    · simp [ROWS_PER_FILE]
  · simp only [hrot, if_false]
    rw [Nat.not_le] at hrot
    exact ⟨⟨hclosed, hcur, hcount, hparts, hhandles, hbook, hsome⟩, hrot⟩

theorem partitionInv_fields {st1 st' : PipelineState} (h : partitionInv st1)
    (hlt : st1.outputRowCount < ROWS_PER_FILE)
    (hc : st'.closedParts = st1.closedParts)
    (hcount' : st'.outputRowCount = st1.outputRowCount + 1)
    (hcop2 : st'.currentOutputPart = st1.currentOutputPart)
    (hnh2 : st'.nextHandle = st1.nextHandle)
    (hcur' : st'.current = st1.current ∨
      (∃ p row, st1.current = some p ∧
        st'.current = some ⟨p.part, p.handle, p.rows ++ [row]⟩)) :
    partitionInv st' := by
  obtain ⟨hclosed, hcur, hcount, hparts, hhandles, hbook, hsome⟩ := h
  obtain ⟨p0, hp0⟩ := Option.isSome_iff_exists.mp hsome
  obtain ⟨hcop, hnh⟩ := hbook p0 hp0
  rcases hcur' with hsame | ⟨p, row, hp, hps⟩
  · have hall' : allParts st' = allParts st1 := by
      simp [allParts, hc, hsame]
    refine ⟨?_, ?_, ?_, ?_, ?_, ?_, ?_⟩
    · rw [hc]
      exact hclosed
    · intro q hq
      rw [hsame, hp0] at hq
      cases hq
      rw [hcount']
      exact le_trans (hcur p0 hp0) (Nat.le_succ _)
    · rw [hcount']
      exact hlt
    · rw [hall']
      exact hparts
    · rw [hall']
      exact hhandles
    · intro q hq
      rw [hall', hcop2, hnh2]
      exact ⟨hcop, hnh⟩
    · rw [hsame]
      exact hsome
  · have hall1 : allParts st1 = st1.closedParts ++ [p] :=
      allParts_of_current_some hp
    have hall' : allParts st' =
        st1.closedParts ++ [(⟨p.part, p.handle, p.rows ++ [row]⟩ : OutputPartition)] := by
      simp [allParts, hc, hps]
    have hmaps : (allParts st').map OutputPartition.part =
        (allParts st1).map OutputPartition.part := by
      rw [hall', hall1, List.map_append, List.map_append]
      rfl
    have hmaph : (allParts st').map OutputPartition.handle =
        (allParts st1).map OutputPartition.handle := by
      rw [hall', hall1, List.map_append, List.map_append]
      rfl
    have hlen : (allParts st').length = (allParts st1).length := by
      rw [hall', hall1]
      simp
    refine ⟨?_, ?_, ?_, ?_, ?_, ?_, ?_⟩
    · rw [hc]
      exact hclosed
    · intro q hq
      rw [hps] at hq
      cases hq
      rw [hcount']
      simpa using Nat.succ_le_succ (hcur p hp)
    · rw [hcount']
      exact hlt
    · rw [hmaps, hlen]
      exact hparts
    · rw [hmaph, hlen]
      exact hhandles
    · intro q hq
      rw [hlen, hcop2, hnh2]
      exact ⟨hcop, hnh⟩
    · rw [hps]
      rfl

theorem partitionInv_writeOne (r : GeocodeResult) {st : PipelineState}
    (h : partitionInv st) : partitionInv (writeOne st r) := by
  obtain ⟨h1, hlt⟩ := partitionInv_rotateIfFull h
  obtain ⟨p, hp⟩ := Option.isSome_iff_exists.mp h1.2.2.2.2.2.2
  unfold writeOne writeOneRouted
  by_cases hg : jsTruthy r.census_tract_geoid = true
  · simp only [hg, if_true]
    refine partitionInv_fields h1 hlt rfl rfl rfl rfl
      (Or.inr ⟨p, r.address_id ++ "," ++ r.census_tract_geoid.getD "", hp, ?_⟩)
    show (appendRow (r.address_id ++ "," ++ r.census_tract_geoid.getD "")
      (rotateIfFull st)).current = _
    simp [appendRow, hp]
  · rw [Bool.not_eq_true] at hg
    simp only [hg, Bool.false_eq_true, if_false]
    by_cases he : jsTruthy r.error = true
    · simp only [he, if_true]
      exact partitionInv_fields h1 hlt rfl rfl rfl rfl (Or.inl rfl)
    · rw [Bool.not_eq_true] at he
      simp only [he, Bool.false_eq_true, if_false]
      exact partitionInv_fields h1 hlt rfl rfl rfl rfl (Or.inl rfl)

theorem partitionInv_foldl (rs : List GeocodeResult) {st : PipelineState}
    (h : partitionInv st) : partitionInv (rs.foldl writeOne st) := by
  induction rs generalizing st with
  | nil => exact h
  | cons r rs ih => exact ih (partitionInv_writeOne r h)

theorem partitionInv_writeResults (rs : List GeocodeResult)
    {st : PipelineState} (h : partitionInv st) :
    partitionInv (writeResults rs st) := by
  unfold writeResults
  obtain ⟨p, hp⟩ := Option.isSome_iff_exists.mp h.2.2.2.2.2.2
  rw [hp]
  exact partitionInv_foldl rs h

theorem partitionInv_flushChunk (d : Dispatch) (fin : Bool)
    (buf : List WorkerAddress) {st : PipelineState} (h : partitionInv st) :
    partitionInv (flushChunk d fin buf st) := by
  unfold flushChunk
  cases d buf with
  | ok results => exact partitionInv_writeResults results h
  | error e => exact h

theorem partitionInv_stepRecord (cs : Nat) (d : Dispatch)
    (acc : PipelineState × List WorkerAddress) (r : InputRecord)
    (h : partitionInv acc.1) : partitionInv (stepRecord cs d acc r).1 := by
  unfold stepRecord
  cases hla : r.latitude with
  | none => exact h
  | some lat =>
    cases hlo : r.longitude with
    | none => exact h
    | some lon =>
      by_cases hv : invalidCoords lat lon = true
      · simp only [hv, if_true]
        exact h
      · rw [Bool.not_eq_true] at hv
        simp only [hv, Bool.false_eq_true, if_false]
        by_cases hfull : cs ≤ acc.2.length + 1
        · have hq : cs ≤ (acc.2 ++ [(⟨r.address_id, some lat, some lon⟩ : WorkerAddress)]).length := by
            simpa using hfull
          simp only [hq, if_true]
          exact partitionInv_flushChunk d false _ h
        · have hq : ¬ cs ≤ (acc.2 ++ [(⟨r.address_id, some lat, some lon⟩ : WorkerAddress)]).length := by
            simpa using hfull
          simp only [hq, if_false]
          exact h

theorem partitionInv_stepFold (cs : Nat) (d : Dispatch)
    (recs : List InputRecord) (acc : PipelineState × List WorkerAddress)
    (h : partitionInv acc.1) :
    partitionInv (recs.foldl (stepRecord cs d) acc).1 := by
  induction recs generalizing acc with
  | nil => exact h
  | cons r recs ih => exact ih _ (partitionInv_stepRecord cs d acc r h)

theorem partitionInv_processAddressFile (cs : Nat) (d : Dispatch)
    (records : List InputRecord) {st : PipelineState} (h : partitionInv st) :
    partitionInv (processAddressFile cs d records st) := by
  unfold processAddressFile
  have hf := partitionInv_stepFold cs d records (st, []) h
  by_cases hl : 0 < (records.foldl (stepRecord cs d) (st, [])).2.length
  · simp only [hl, if_true]
    exact partitionInv_flushChunk d true _ hf
  · simp only [hl, if_false]
    exact hf

theorem partitionInv_base : partitionInv (openNewOutputFile initState) := by
  have heq : openNewOutputFile initState =
      ⟨0, 0, 0, 0, [], some ⟨1, 0, []⟩, 0, 1, 1, [],
        ["Opened output file part 1"]⟩ := rfl
  rw [heq]
  refine ⟨?_, ?_, ?_, ?_, ?_, ?_, rfl⟩
  · intro q hq
    cases hq
  · intro q hq
    cases hq
    exact Nat.le_refl 0
  · exact Nat.zero_le _
  · rfl
  · rfl
  · intro q hq
    cases hq
    exact ⟨rfl, rfl⟩

theorem partitionInv_runPipeline (cs : Nat) (d : Dispatch)
    (files : List (List InputRecord)) :
    partitionInv (runPipeline cs d files) := by
  unfold runPipeline
  have hbase := partitionInv_base
  generalize openNewOutputFile initState = st0 at hbase ⊢
  induction files generalizing st0 with
  | nil => exact hbase
  | cons f files ih =>
    exact ih _ (partitionInv_processAddressFile cs d f hbase)

/-! ## Claim C7 -/

/-- C7: after every run, over any chunk size, dispatch behaviour and
input, every output partition holds at most `ROWS_PER_FILE` data rows
(the header is not counted); partition suffixes are the consecutive run
`1, 2, …` — each rotation opens the next incrementing suffix — and the
backing stream handles are the consecutive run `0, 1, …`, so a
partition's file handle is never reused. -/
theorem c7_partitions_capped_incrementing_fresh_handles (cs : Nat)
    (d : Dispatch) (files : List (List InputRecord)) :
    (∀ p ∈ allParts (runPipeline cs d files),
      p.rows.length ≤ ROWS_PER_FILE) ∧
    (allParts (runPipeline cs d files)).map OutputPartition.part =
      List.range' 1 (allParts (runPipeline cs d files)).length ∧
    (allParts (runPipeline cs d files)).map OutputPartition.handle =
      List.range (allParts (runPipeline cs d files)).length := by
  obtain ⟨hclosed, hcur, hcount, hparts, hhandles, _, hsome⟩ :=
    partitionInv_runPipeline cs d files
  refine ⟨?_, hparts, hhandles⟩
  intro p hp
  rcases List.mem_append.mp hp with h | h
  · exact hclosed p h
  · obtain ⟨q, hq⟩ := Option.isSome_iff_exists.mp hsome
    rw [hq] at h
    simp at h
    subst h
    exact le_trans (hcur p hq) hcount

/-- Witness for C7 at the empty run: one open partition with suffix 1,
handle 0 and no data rows. -/
theorem c7_partitions_capped_incrementing_fresh_handles_witness :
    (⟨1, 0, []⟩ : OutputPartition).rows.length ≤ ROWS_PER_FILE ∧
    (allParts (runPipeline 1 failingDispatch [])).map OutputPartition.part =
      List.range' 1 (allParts (runPipeline 1 failingDispatch [])).length := by
  refine ⟨?_,
    (c7_partitions_capped_incrementing_fresh_handles 1 failingDispatch []).2.1⟩
  exact (c7_partitions_capped_incrementing_fresh_handles 1 failingDispatch []).1
    ⟨1, 0, []⟩ (by decide)

/-! ## Claim C3 -/

theorem stepRecord_valid (cs : Nat) (d : Dispatch) (st : PipelineState)
    (buf : List WorkerAddress) {r : InputRecord} (hv : recordValid r) :
    stepRecord cs d (st, buf) r =
      if cs ≤ (buf ++ [toWorkerAddress r]).length
      then (flushChunk d false (buf ++ [toWorkerAddress r]) st, [])
      else (st, buf ++ [toWorkerAddress r]) := by
  obtain ⟨lat, lon, hla, hlo, hval⟩ := hv
  have haddr : (⟨r.address_id, some lat, some lon⟩ : WorkerAddress) =
      toWorkerAddress r := by
    simp [toWorkerAddress, hla, hlo]
  unfold stepRecord
  rw [hla, hlo]
  simp only [hval, Bool.false_eq_true, if_false, haddr]

theorem stepRecord_fill (cs : Nat) (d : Dispatch) :
    ∀ (xs : List InputRecord) (st : PipelineState) (buf : List WorkerAddress),
      (∀ r ∈ xs, recordValid r) → xs ≠ [] → buf.length + xs.length = cs →
      xs.foldl (stepRecord cs d) (st, buf) =
        (flushChunk d false (buf ++ xs.map toWorkerAddress) st, []) := by
  intro xs
  induction xs with
  | nil =>
    intro st buf _ hne _
    exact absurd rfl hne
  | cons r xs ih =>
    intro st buf hv hne hlen
    have hvr := hv r (List.mem_cons_self r xs)
    rw [List.foldl_cons, stepRecord_valid cs d st buf hvr]
    by_cases hfull : cs ≤ (buf ++ [toWorkerAddress r]).length
    · have hxs : xs = [] := by
        have h1 : buf.length + (xs.length + 1) = cs := by simpa using hlen
        have h2 : cs ≤ buf.length + 1 := by simpa using hfull
        have : xs.length = 0 := by omega
        exact List.eq_nil_of_length_eq_zero this
      subst hxs
      simp only [hfull, if_true, List.foldl_nil]
      simp
    · have hxne : xs ≠ [] := by
        intro hx
        subst hx
        have h1 : buf.length + 1 = cs := by simpa using hlen
        exact hfull (by simp [h1])
      simp only [hfull, if_false]
      rw [ih st (buf ++ [toWorkerAddress r])
        (fun rr hrr => hv rr (List.mem_cons_of_mem r hrr)) hxne
        (by simp at hlen ⊢; omega)]
      simp

/-- C3 counterexample: one valid row whose chunk dispatch rejects — the
run records nothing for it: no error counter, no error-channel row, no
processed count; only a log line is written, contradicting "every point
of that chunk is recorded as errored with the failure's message". -/
theorem c3_counterexample_failed_chunk_not_recorded :
    (runPipeline 1 failingDispatch [[⟨"a1", some 10, some 20⟩]]).totalErrors = 0 ∧
    (runPipeline 1 failingDispatch [[⟨"a1", some 10, some 20⟩]]).unmatchedChan = [] ∧
    (runPipeline 1 failingDispatch [[⟨"a1", some 10, some 20⟩]]).totalProcessed = 0 ∧
    (runPipeline 1 failingDispatch [[⟨"a1", some 10, some 20⟩]]).logs =
      ["Opened output file part 1", "Error processing chunk: boom"] := by
  refine ⟨?_, ?_, ?_, ?_⟩ <;> with_unfolding_all rfl

/-- C3 amended: when the dispatched chunk computation rejects, the
failure is only logged — the handler leaves every counter, the output
partitions and the error channel unchanged, so the chunk's points are
recorded nowhere — and processing of subsequent chunks continues: the
run over the remaining records proceeds exactly as if restarted from the
logged state. -/
theorem c3_failed_chunk_only_logged_and_run_continues :
    (∀ (d : Dispatch) (fin : Bool) (buf : List WorkerAddress)
        (st : PipelineState) (e : String),
      d buf = .error e →
      flushChunk d fin buf st = addLog
        ((if fin then "Error processing final chunk: "
          else "Error processing chunk: ") ++ e) st) ∧
    (∀ (cs : Nat) (d : Dispatch) (xs ys : List InputRecord)
        (st : PipelineState) (e : String),
      0 < cs → xs.length = cs → (∀ r ∈ xs, recordValid r) →
      d (xs.map toWorkerAddress) = .error e →
      processAddressFile cs d (xs ++ ys) st =
        processAddressFile cs d ys
          (addLog ("Error processing chunk: " ++ e) st)) := by
  constructor
  · intro d fin buf st e hde
    unfold flushChunk
    rw [hde]
  · intro cs d xs ys st e hcs hlen hv hde
    have hxne : xs ≠ [] := by
      intro hx
      subst hx
      simp at hlen
      omega
    have hfill := stepRecord_fill cs d xs st [] hv hxne (by simpa using hlen)
    have hflush : flushChunk d false ([] ++ xs.map toWorkerAddress) st =
        addLog ("Error processing chunk: " ++ e) st := by
      rw [List.nil_append]
      unfold flushChunk
      rw [hde]
      simp
    unfold processAddressFile
    rw [List.foldl_append, hfill, hflush]

/-- Witness for C3: a one-record chunk whose dispatch rejects with
`boom` — the handler only logs, and the file run continues from the
logged state. -/
theorem c3_failed_chunk_only_logged_and_run_continues_witness :
    flushChunk failingDispatch false [⟨"a1", some 10, some 20⟩]
        (openNewOutputFile initState) =
      addLog ("Error processing chunk: " ++ "boom")
        (openNewOutputFile initState) ∧
    processAddressFile 1 failingDispatch
        ([⟨"a1", some 10, some 20⟩] ++ []) (openNewOutputFile initState) =
      processAddressFile 1 failingDispatch []
        (addLog ("Error processing chunk: " ++ "boom")
          (openNewOutputFile initState)) := by
  constructor
  · exact c3_failed_chunk_only_logged_and_run_continues.1 failingDispatch
      false [⟨"a1", some 10, some 20⟩] (openNewOutputFile initState) "boom" rfl
  · refine c3_failed_chunk_only_logged_and_run_continues.2 1 failingDispatch
      [⟨"a1", some 10, some 20⟩] [] (openNewOutputFile initState) "boom"
      (by decide) rfl ?_ rfl
    intro r hr
    rw [List.mem_singleton.mp hr]
    exact ⟨10, 20, rfl, rfl, by with_unfolding_all rfl⟩

/-- Witness for C10 at the out-of-range worker address `(w1, 100, 0)`. -/
theorem c10_out_of_range_counted_but_unwritten_witness :
    processAddresses [⟨"w1", some 100, some 0⟩] demoIndex =
      [⟨"w1", none, none⟩] ∧
    (writeResults (processAddresses [⟨"w1", some 100, some 0⟩] demoIndex)
      initState).totalUnmatched = initState.totalUnmatched + 1 ∧
    (writeResults (processAddresses [⟨"w1", some 100, some 0⟩] demoIndex)
      initState).totalMatched = initState.totalMatched ∧
    partsRowCount (writeResults
      (processAddresses [⟨"w1", some 100, some 0⟩] demoIndex) initState) =
      partsRowCount initState ∧
    (writeResults (processAddresses [⟨"w1", some 100, some 0⟩] demoIndex)
      initState).unmatchedChan = initState.unmatchedChan :=
  c10_out_of_range_counted_but_unwritten ⟨"w1", some 100, some 0⟩ 100 0
    demoIndex initState rfl rfl (Or.inr (Or.inl (by norm_num)))

/-- C4 counterexample: a source whose first record has no identifier
field does not make loading fail — with a second, healthy source the
load succeeds, so "fails with LoadError when no identifier field can be
found on the first record of that source" is false. -/
theorem c4_counterexample_fieldless_source_not_fatal :
    (loadCensusTractShapefiles [[demoRecordNoField], [demoRecord]]).isOk = true := by
  with_unfolding_all rfl

/-- C4 amended: a source whose first record has no identifier field is
skipped entirely (it yields no tracts) with a warning; loading fails
with `LoadError` exactly when zero usable polygons were loaded over all
sources; and a record whose identifier fails the 11-digit format is
skipped, never loaded, and not fatal (every loaded tract passes the
format). -/
theorem c4_fieldless_source_skipped_error_iff_no_tracts :
    (∀ (r : ShapefileRecord) (rest : List ShapefileRecord),
      detectGeoidField r.props = none → loadSource (r :: rest) = []) ∧
    (∀ sources : List (List ShapefileRecord),
      (∃ e, loadCensusTractShapefiles sources = .error e) ↔
        (sources.map loadSource).flatten = []) ∧
    (∀ (recs : List ShapefileRecord) (t : CensusTract),
      t ∈ loadSource recs → isGeoid11 t.geoid = true) := by
  refine ⟨?_, ?_, fun recs t h => loadSource_geoid11 h⟩
  · intro r rest hd
    rw [loadSource, hd]
  · intro sources
    constructor
    · rintro ⟨e, he⟩
      simp only [loadCensusTractShapefiles] at he
      split at he
      next h => exact List.length_eq_zero.mp h
      next => cases he
    · intro hf
      refine ⟨"No census tracts loaded. Run: npm run download-shapefiles", ?_⟩
      simp only [loadCensusTractShapefiles, hf]
      rfl

/-- Witness for C4: the fieldless demo source is skipped; alone it makes
the load fail; the demo tract's identifier passes the format. -/
theorem c4_fieldless_source_skipped_error_iff_no_tracts_witness :
    loadSource [demoRecordNoField] = [] ∧
    (∃ e, loadCensusTractShapefiles [[demoRecordNoField]] = .error e) ∧
    isGeoid11 demoTract.geoid = true := by
  have hm : demoTract ∈ loadSource [demoRecord] := by
    have e : loadSource [demoRecord] = [demoTract] := by with_unfolding_all rfl
    rw [e]
    exact List.mem_singleton.mpr rfl
  exact ⟨c4_fieldless_source_skipped_error_iff_no_tracts.1 demoRecordNoField []
      (by with_unfolding_all rfl),
    (c4_fieldless_source_skipped_error_iff_no_tracts.2.1 [[demoRecordNoField]]).mpr
      (by with_unfolding_all rfl),
    c4_fieldless_source_skipped_error_iff_no_tracts.2.2 [demoRecord] demoTract hm⟩

/-! ## Claim C5 -/

/-- C5 counterexample: a record whose geometry yields no coordinate
pairs is not dropped — it is loaded into the polygon set and its index
item is the degenerate bounding box `[0, 0, 0, 0]`, contrary to the
claim that it contributes nothing. -/
theorem c5_counterexample_no_ring_polygon_kept :
    loadCensusTractShapefiles [[demoRecordNoCoords]] =
      .ok ⟨[⟨"00000000003", .polygon []⟩], [⟨0, 0, 0, 0, 0⟩],
        ⟨180, 90, -180, -90⟩⟩ := by
  with_unfolding_all rfl

/-- C5 amended: a loaded polygon whose geometry yields no coordinate
pairs is retained in the polygon set, and its spatial-index entry is the
degenerate bounding box `[0, 0, 0, 0]` produced by `extractBounds`. -/
theorem c5_no_ring_polygon_retained_degenerate_bbox
    (sources : List (List ShapefileRecord)) (s : SpatialIndexData)
    (i : Nat) (t : CensusTract)
    (hload : loadCensusTractShapefiles sources = .ok s)
    (ht : s.tracts.get? i = some t)
    (hcoords : extractAllCoordinates t.geometry = []) :
    s.items.get? i = some ⟨0, 0, 0, 0, i⟩ := by
  have hb : extractBounds t.geometry = ⟨0, 0, 0, 0⟩ := by
    unfold extractBounds
    rw [hcoords]
  rw [(load_ok_spec hload).2.1, mkItems_get?, ht]
  simp [hb]

/-- Witness for C5 at the concrete no-ring record. -/
theorem c5_no_ring_polygon_retained_degenerate_bbox_witness :
    (⟨[⟨"00000000003", .polygon []⟩], [⟨0, 0, 0, 0, 0⟩],
        ⟨180, 90, -180, -90⟩⟩ : SpatialIndexData).items.get? 0 =
      some ⟨0, 0, 0, 0, 0⟩ :=
  c5_no_ring_polygon_retained_degenerate_bbox [[demoRecordNoCoords]]
    ⟨[⟨"00000000003", .polygon []⟩], [⟨0, 0, 0, 0, 0⟩], ⟨180, 90, -180, -90⟩⟩
    0 ⟨"00000000003", .polygon []⟩ (by with_unfolding_all rfl) rfl rfl

/-! ## Geometry lemmas (towards C6) -/

theorem getLast?_mem {α : Type} {l : List α} {x : α}
    (h : l.getLast? = some x) : x ∈ l := by
  cases l with
  | nil => cases h
  | cons a t =>
    rw [List.getLast?_eq_getLast _ (by simp)] at h
    cases h
    exact List.getLast_mem _

theorem ringEdges_mem {ring : List Point} {e : Point × Point}
    (h : e ∈ ringEdges ring) : e.1 ∈ ring ∧ e.2 ∈ ring := by
  unfold ringEdges at h
  cases hl : ring.getLast? with
  | none => rw [hl] at h; cases h
  | some l =>
    rw [hl] at h
    simp only [] at h
    obtain ⟨c, pj⟩ := e
    obtain ⟨h1, h2⟩ := List.of_mem_zip h
    refine ⟨h1, ?_⟩
    rcases List.mem_cons.mp h2 with h2 | h2
    · rw [h2]
      exact getLast?_mem hl
    · exact List.dropLast_subset ring h2

theorem closeRing_subset {ring : List Point} : ∀ c ∈ closeRing ring, c ∈ ring := by
  intro c hc
  unfold closeRing at hc
  split at hc
  · split at hc
    · exact List.dropLast_subset ring hc
    · exact hc
  · exact hc

theorem inRingGo_true_flip {x y : ℚ} {es : List (Point × Point)} {acc : Bool}
    (h : inRingGo x y true es acc = true) : inRingGo x y false es acc = true := by
  induction es generalizing acc with
  | nil => exact h
  | cons e rest ih =>
    cases e with
    | mk ci pj =>
      rw [inRingGo] at h ⊢
      by_cases hb : isOnBoundary x y ci.1 ci.2 pj.1 pj.2 = true
      · rw [if_pos hb] at h
        cases h
      · rw [if_neg hb] at h ⊢
        exact ih h

theorem inRingGo_false_flip {x y : ℚ} {es : List (Point × Point)} {acc : Bool}
    (h : inRingGo x y false es acc = false) : inRingGo x y true es acc = false := by
  induction es generalizing acc with
  | nil => exact h
  | cons e rest ih =>
    cases e with
    | mk ci pj =>
      rw [inRingGo] at h ⊢
      by_cases hb : isOnBoundary x y ci.1 ci.2 pj.1 pj.2 = true
      · rw [if_pos hb] at h
        cases h
      · rw [if_neg hb] at h ⊢
        exact ih h

theorem inRing_true_flip {x y : ℚ} {ring : List Point}
    (h : inRing x y ring true = true) : inRing x y ring false = true :=
  inRingGo_true_flip h

theorem inRing_false_flip {x y : ℚ} {ring : List Point}
    (h : inRing x y ring false = false) : inRing x y ring true = false :=
  inRingGo_false_flip h

theorem strictlyInRings_pointInRings {x y : ℚ} {rings : List (List Point)}
    (h : strictlyInRings x y rings) : pointInRings x y false rings = true := by
  cases rings with
  | nil => cases h
  | cons outer holes =>
    obtain ⟨houter, hholes⟩ := h
    rw [pointInRings]
    rw [Bool.and_eq_true]
    refine ⟨inRing_true_flip houter, ?_⟩
    rw [List.all_eq_true]
    intro hring hmem
    rw [Bool.not_eq_true']
    show inRing x y hring (! false) = false
    rw [Bool.not_false]
    exact inRing_false_flip (hholes hring hmem)

theorem strictlyInterior_bpip {x y : ℚ} {g : GeoJSONGeometry}
    (h : strictlyInterior x y g) :
    booleanPointInPolygon x y g false = true := by
  cases g with
  | polygon rings => exact strictlyInRings_pointInRings h
  | multiPolygon parts =>
    obtain ⟨part, hmem, hpart⟩ := h
    rw [booleanPointInPolygon, List.any_eq_true]
    exact ⟨part, hmem, strictlyInRings_pointInRings hpart⟩

theorem inRingT_eq {x y : ℚ} {r : List Point} (ib : Bool) (h : r ≠ []) :
    inRingT x y r ib = .ok (inRing x y r ib) := by
  cases r with
  | nil => exact absurd rfl h
  | cons a t => rfl

theorem holeScanT_eq {x y : ℚ} (ib : Bool) {holes : List (List Point)}
    (h : ∀ r ∈ holes, r ≠ []) :
    holeScanT x y ib holes =
      .ok (! holes.all fun r => ! inRing x y r (! ib)) := by
  induction holes with
  | nil => rfl
  | cons hd rest ih =>
    show (match inRingT x y hd (! ib) with
        | .error e => Except.error e
        | .ok true => Except.ok true
        | .ok false => holeScanT x y ib rest) =
      .ok (! (hd :: rest).all fun r => ! inRing x y r (! ib))
    rw [inRingT_eq (! ib) (h hd (List.mem_cons_self _ _))]
    cases hb : inRing x y hd (! ib) with
    | true =>
      show (Except.ok true : Except String Bool) =
        .ok (! (hd :: rest).all fun r => ! inRing x y r (! ib))
      simp [List.all_cons, hb]
    | false =>
      show holeScanT x y ib rest =
        .ok (! (hd :: rest).all fun r => ! inRing x y r (! ib))
      rw [ih fun r hr => h r (List.mem_cons_of_mem _ hr)]
      simp [List.all_cons, hb]

theorem pointInRingsT_eq {x y : ℚ} (ib : Bool) {rings : List (List Point)}
    (hne : rings ≠ []) (h : ∀ r ∈ rings, r ≠ []) :
    pointInRingsT x y ib rings = .ok (pointInRings x y ib rings) := by
  cases rings with
  | nil => exact absurd rfl hne
  | cons outer holes =>
    show (match inRingT x y outer ib with
        | .error e => Except.error e
        | .ok false => Except.ok false
        | .ok true =>
          match holeScanT x y ib holes with
          | .error e => Except.error e
          | .ok inHole => Except.ok (! inHole)) =
      .ok (pointInRings x y ib (outer :: holes))
    rw [inRingT_eq ib (h outer (List.mem_cons_self _ _))]
    cases hb : inRing x y outer ib with
    | false =>
      show (Except.ok false : Except String Bool) =
        .ok (pointInRings x y ib (outer :: holes))
      simp [pointInRings, hb]
    | true =>
      show (match holeScanT x y ib holes with
          | .error e => Except.error e
          | .ok inHole => Except.ok (! inHole)) =
        .ok (pointInRings x y ib (outer :: holes))
      rw [holeScanT_eq ib fun r hr => h r (List.mem_cons_of_mem _ hr)]
      show Except.ok (! ! holes.all fun r => ! inRing x y r (! ib)) =
        .ok (pointInRings x y ib (outer :: holes))
      simp [pointInRings, hb]

theorem partScanT_eq {x y : ℚ} (ib : Bool) {parts : List (List (List Point))}
    (h : ∀ part ∈ parts, part ≠ [] ∧ ∀ r ∈ part, r ≠ []) :
    partScanT x y ib parts = .ok (parts.any (pointInRings x y ib)) := by
  induction parts with
  | nil => rfl
  | cons part rest ih =>
    show (match pointInRingsT x y ib part with
        | .error e => Except.error e
        | .ok true => Except.ok true
        | .ok false => partScanT x y ib rest) =
      .ok ((part :: rest).any (pointInRings x y ib))
    rw [pointInRingsT_eq ib (h part (List.mem_cons_self _ _)).1
      (h part (List.mem_cons_self _ _)).2]
    cases hb : pointInRings x y ib part with
    | true =>
      show (Except.ok true : Except String Bool) =
        .ok ((part :: rest).any (pointInRings x y ib))
      simp [List.any_cons, hb]
    | false =>
      show partScanT x y ib rest =
        .ok ((part :: rest).any (pointInRings x y ib))
      rw [ih fun p hp => h p (List.mem_cons_of_mem _ hp)]
      simp [List.any_cons, hb]

theorem bptpT_of_wf {x y : ℚ} {g : GeoJSONGeometry} (ib : Bool)
    (hwf : ringsWellFormed g) :
    booleanPointInPolygonT x y g ib =
      .ok (booleanPointInPolygon x y g ib) := by
  cases g with
  | polygon rings =>
    have hwf2 : rings ≠ [] ∧ ∀ r ∈ rings, ringWellFormed r := hwf
    exact pointInRingsT_eq ib hwf2.1 fun r hr => (hwf2.2 r hr).1
  | multiPolygon parts =>
    have hwf2 : ∀ part ∈ parts, part ≠ [] ∧ ∀ r ∈ part, ringWellFormed r :=
      hwf
    exact partScanT_eq ib fun p hp =>
      ⟨(hwf2 p hp).1, fun r hr => ((hwf2 p hp).2 r hr).1⟩

theorem foldBounds_le_init (cs : List Point) (b : BBox) :
    (foldBounds b cs).minX ≤ b.minX ∧ b.maxX ≤ (foldBounds b cs).maxX ∧
    (foldBounds b cs).minY ≤ b.minY ∧ b.maxY ≤ (foldBounds b cs).maxY := by
  induction cs generalizing b with
  | nil => exact ⟨le_rfl, le_rfl, le_rfl, le_rfl⟩
  | cons c rest ih =>
    obtain ⟨i1, i2, i3, i4⟩ :=
      ih ⟨min b.minX c.1, min b.minY c.2, max b.maxX c.1, max b.maxY c.2⟩
    rw [foldBounds, List.foldl_cons]
    exact ⟨le_trans i1 (min_le_left _ _), le_trans (le_max_left _ _) i2,
      le_trans i3 (min_le_left _ _), le_trans (le_max_left _ _) i4⟩

theorem foldBounds_mem {c : Point} {cs : List Point} (b : BBox)
    (h : c ∈ cs) : inBBox c.1 c.2 (foldBounds b cs) := by
  induction cs generalizing b with
  | nil => cases h
  | cons c0 rest ih =>
    rcases List.mem_cons.mp h with rfl | h
    · obtain ⟨i1, i2, i3, i4⟩ :=
        foldBounds_le_init rest
          ⟨min b.minX c.1, min b.minY c.2, max b.maxX c.1, max b.maxY c.2⟩
      rw [foldBounds, List.foldl_cons]
      exact ⟨le_trans i1 (min_le_right _ _), le_trans (le_max_right _ _) i2,
        le_trans i3 (min_le_right _ _), le_trans (le_max_right _ _) i4⟩
    · rw [foldBounds, List.foldl_cons]
      exact ih _ h

theorem extractBounds_mem {g : GeoJSONGeometry} {c : Point}
    (h : c ∈ extractAllCoordinates g) : inBBox c.1 c.2 (extractBounds g) := by
  unfold extractBounds
  cases hc : extractAllCoordinates g with
  | nil => rw [hc] at h; cases h
  | cons c0 rest =>
    rw [hc] at h
    exact foldBounds_mem _ h

theorem globalBBox_mem {tracts : List CensusTract} {t : CensusTract}
    {c : Point} (ht : t ∈ tracts) (hc : c ∈ extractAllCoordinates t.geometry) :
    inBBox c.1 c.2 (globalBBox tracts) := by
  unfold globalBBox
  refine foldBounds_mem _ ?_
  rw [List.mem_flatten]
  exact ⟨extractAllCoordinates t.geometry, List.mem_map_of_mem _ ht, hc⟩

theorem bne_comm (a b : Bool) : (a != b) = (b != a) := by
  cases a <;> cases b <;> rfl

theorem flipCount_parity {α : Type} (p : α → Bool) :
    ∀ (l : List α) (a b : α), (a :: l).getLast? = some b →
      flipCount p (a :: l) % 2 = (if p a = p b then 0 else 1) := by
  intro l
  induction l with
  | nil =>
    intro a b h
    have hb : b = a := by
      rw [List.getLast?_singleton] at h
      exact (Option.some.inj h).symm
    subst hb
    simp [flipCount]
  | cons c t ih =>
    intro a b h
    have h2 : (c :: t).getLast? = some b := by
      rwa [List.getLast?_cons_cons] at h
    have hrec := ih c b h2
    rw [flipCount]
    rcases Bool.eq_false_or_eq_true (p a) with ha | ha <;>
      rcases Bool.eq_false_or_eq_true (p c) with hc | hc <;>
      rcases Bool.eq_false_or_eq_true (p b) with hb | hb <;>
      simp_all [Nat.add_mod]

theorem zip_flipCount {α : Type} (p : α → Bool) :
    ∀ (l : List α) (x : α),
      (l.zip (x :: l.dropLast)).countP (fun e => p e.1 != p e.2) =
        flipCount p (x :: l) := by
  intro l
  induction l with
  | nil =>
    intro x
    simp [flipCount]
  | cons a t ih =>
    intro x
    cases t with
    | nil =>
      simp [flipCount, List.countP_cons, bne_comm]
    | cons c t2 =>
      have hd : (a :: c :: t2).dropLast = a :: (c :: t2).dropLast := rfl
      rw [hd, List.zip_cons_cons, List.countP_cons, ih a]
      have hr : flipCount p (x :: a :: c :: t2) =
          (if p x != p a then 1 else 0) + flipCount p (a :: c :: t2) := rfl
      rw [hr]
      dsimp only
      rw [bne_comm (p a) (p x)]
      omega

theorem inRingGo_eval {x y : ℚ} {ib : Bool} :
    ∀ (es : List (Point × Point)) (acc : Bool),
      (∀ e ∈ es, isOnBoundary x y e.1.1 e.1.2 e.2.1 e.2.2 = false) →
      inRingGo x y ib es acc =
        (if Even (es.countP fun e => edgeCross x y e.1.1 e.1.2 e.2.1 e.2.2)
         then acc else !acc) := by
  intro es
  induction es with
  | nil =>
    intro acc _
    simp [inRingGo]
  | cons e rest ih =>
    intro acc hnb
    obtain ⟨ci, pj⟩ := e
    have hnbe := hnb (ci, pj) (List.mem_cons_self _ _)
    rw [inRingGo, if_neg (by rw [hnbe]; exact Bool.false_ne_true)]
    rw [List.countP_cons]
    have hrest := fun e he => hnb e (List.mem_cons_of_mem _ he)
    by_cases hc : edgeCross x y ci.1 ci.2 pj.1 pj.2 = true
    · rw [if_pos hc, ih (!acc) hrest]
      simp only [hc, if_true]
      by_cases he : Even (rest.countP fun e => edgeCross x y e.1.1 e.1.2 e.2.1 e.2.2) <;>
        simp [he, Nat.even_add_one]
    · rw [Bool.not_eq_true] at hc
      rw [if_neg (by rw [hc]; exact Bool.false_ne_true), ih acc hrest]
      simp [hc]

theorem straddle_cases {y yi yj : ℚ}
    (h : (decide (y < yi) != decide (y < yj)) = true) :
    (yj ≤ y ∧ y < yi) ∨ (yi ≤ y ∧ y < yj) := by
  by_cases h1 : y < yi <;> by_cases h2 : y < yj
  · simp [h1, h2] at h
  · exact Or.inl ⟨le_of_not_lt h2, h1⟩
  · exact Or.inr ⟨le_of_not_lt h1, h2⟩
  · simp [h1, h2] at h

theorem crossX_bounds {y yi yj : ℚ} (xi xj : ℚ)
    (h : (decide (y < yi) != decide (y < yj)) = true) :
    min xi xj ≤ (xj - xi) * (y - yi) / (yj - yi) + xi ∧
    (xj - xi) * (y - yi) / (yj - yi) + xi ≤ max xi xj := by
  have hs := straddle_cases h
  have hne : yj - yi ≠ 0 := by
    rcases hs with ⟨h1, h2⟩ | ⟨h1, h2⟩ <;> intro hz <;> nlinarith
  have htc : (y - yi) / (yj - yi) * (yj - yi) = y - yi :=
    div_mul_cancel₀ _ hne
  have ht01 : 0 ≤ (y - yi) / (yj - yi) ∧ (y - yi) / (yj - yi) ≤ 1 := by
    rcases hs with ⟨h1, h2⟩ | ⟨h1, h2⟩
    · have hneg : yj - yi < 0 := by linarith
      constructor <;> nlinarith [htc]
    · have hpos : 0 < yj - yi := by linarith
      constructor
      · exact div_nonneg (by linarith) (le_of_lt hpos)
      · rw [div_le_one hpos]
        linarith
  obtain ⟨ht0, ht1⟩ := ht01
  have hcx : (xj - xi) * (y - yi) / (yj - yi) + xi =
      xi + (xj - xi) * ((y - yi) / (yj - yi)) := by
    ring
  rw [hcx]
  constructor
  · rcases le_total xi xj with hx | hx
    · rw [min_eq_left hx]
      nlinarith
    · rw [min_eq_right hx]
      nlinarith
  · rcases le_total xi xj with hx | hx
    · rw [max_eq_right hx]
      nlinarith
    · rw [max_eq_left hx]
      nlinarith

theorem onBoundary_false_of_x_out {x y xi yi xj yj bl br : ℚ}
    (hxi : bl ≤ xi ∧ xi ≤ br) (hxj : bl ≤ xj ∧ xj ≤ br)
    (hx : x < bl ∨ br < x) :
    isOnBoundary x y xi yi xj yj = false := by
  unfold isOnBoundary
  rw [decide_eq_false_iff_not]
  rintro ⟨_, h2, _⟩
  rcases hx with hx | hx <;> nlinarith [hxi.1, hxi.2, hxj.1, hxj.2]

theorem onBoundary_false_of_y_out {x y xi yi xj yj bb bt : ℚ}
    (hyi : bb ≤ yi ∧ yi ≤ bt) (hyj : bb ≤ yj ∧ yj ≤ bt)
    (hy : y < bb ∨ bt < y) :
    isOnBoundary x y xi yi xj yj = false := by
  unfold isOnBoundary
  rw [decide_eq_false_iff_not]
  rintro ⟨_, _, h3⟩
  rcases hy with hy | hy <;> nlinarith [hyi.1, hyi.2, hyj.1, hyj.2]

theorem edgeCross_false_of_y_out {x y xi yi xj yj bb bt : ℚ}
    (hyi : bb ≤ yi ∧ yi ≤ bt) (hyj : bb ≤ yj ∧ yj ≤ bt)
    (hy : y < bb ∨ bt < y) :
    edgeCross x y xi yi xj yj = false := by
  unfold edgeCross
  have hstr : (decide (y < yi) != decide (y < yj)) = false := by
    rcases hy with hy | hy
    · have h1 : y < yi := by linarith [hyi.1]
      have h2 : y < yj := by linarith [hyj.1]
      simp [h1, h2]
    · have h1 : ¬ y < yi := by push_neg; linarith [hyi.2]
      have h2 : ¬ y < yj := by push_neg; linarith [hyj.2]
      simp [h1, h2]
  rw [hstr, Bool.false_and]

theorem edgeCross_false_of_x_right {x y xi yi xj yj br : ℚ}
    (hxi : xi ≤ br) (hxj : xj ≤ br) (hx : br < x) :
    edgeCross x y xi yi xj yj = false := by
  unfold edgeCross
  by_cases hstr : (decide (y < yi) != decide (y < yj)) = true
  · have hb := (crossX_bounds xi xj hstr).2
    have hnlt : ¬ x < (xj - xi) * (y - yi) / (yj - yi) + xi := by
      push_neg
      calc (xj - xi) * (y - yi) / (yj - yi) + xi ≤ max xi xj := hb
        _ ≤ br := max_le hxi hxj
        _ ≤ x := le_of_lt hx
    rw [hstr, Bool.true_and, decide_eq_false hnlt]
  · rw [Bool.not_eq_true] at hstr
    rw [hstr, Bool.false_and]

theorem edgeCross_eq_straddle_of_x_left {x y xi yi xj yj bl : ℚ}
    (hxi : bl ≤ xi) (hxj : bl ≤ xj) (hx : x < bl) :
    edgeCross x y xi yi xj yj = (decide (y < yi) != decide (y < yj)) := by
  unfold edgeCross
  by_cases hstr : (decide (y < yi) != decide (y < yj)) = true
  · have hb := (crossX_bounds xi xj hstr).1
    have hlt : x < (xj - xi) * (y - yi) / (yj - yi) + xi := by
      calc x < bl := hx
        _ ≤ min xi xj := le_min hxi hxj
        _ ≤ (xj - xi) * (y - yi) / (yj - yi) + xi := hb
    rw [hstr, Bool.true_and, decide_eq_true hlt]
  · rw [Bool.not_eq_true] at hstr
    rw [hstr, Bool.false_and]

theorem inRingGo_const {x y : ℚ} {ib : Bool} (es : List (Point × Point))
    (acc : Bool)
    (hnb : ∀ e ∈ es, isOnBoundary x y e.1.1 e.1.2 e.2.1 e.2.2 = false)
    (hnc : ∀ e ∈ es, edgeCross x y e.1.1 e.1.2 e.2.1 e.2.2 = false) :
    inRingGo x y ib es acc = acc := by
  rw [inRingGo_eval es acc hnb]
  have hz : (es.countP fun e => edgeCross x y e.1.1 e.1.2 e.2.1 e.2.2) = 0 :=
    List.countP_eq_zero.mpr fun e he => by
      rw [hnc e he]
      exact Bool.false_ne_true
  rw [hz]
  simp

theorem inRing_true_inBBox {x y : ℚ} {ring : List Point} {ib : Bool}
    {b : BBox} (hb : ∀ c ∈ ring, inBBox c.1 c.2 b)
    (h : inRing x y ring ib = true) : inBBox x y b := by
  have hedge : ∀ e ∈ ringEdges (closeRing ring),
      inBBox e.1.1 e.1.2 b ∧ inBBox e.2.1 e.2.2 b := by
    intro e he
    obtain ⟨h1, h2⟩ := ringEdges_mem he
    exact ⟨hb _ (closeRing_subset _ h1), hb _ (closeRing_subset _ h2)⟩
  unfold inRing at h
  by_cases hx1 : b.minX ≤ x
  · by_cases hx2 : x ≤ b.maxX
    · by_cases hy1 : b.minY ≤ y
      · by_cases hy2 : y ≤ b.maxY
        · exact ⟨hx1, hx2, hy1, hy2⟩
        · exfalso
          push_neg at hy2
          rw [inRingGo_const _ _
            (fun e he => onBoundary_false_of_y_out
              ⟨(hedge e he).1.2.2.1, (hedge e he).1.2.2.2⟩
              ⟨(hedge e he).2.2.2.1, (hedge e he).2.2.2.2⟩ (Or.inr hy2))
            (fun e he => edgeCross_false_of_y_out
              ⟨(hedge e he).1.2.2.1, (hedge e he).1.2.2.2⟩
              ⟨(hedge e he).2.2.2.1, (hedge e he).2.2.2.2⟩ (Or.inr hy2))] at h
          exact Bool.false_ne_true h
      · exfalso
        push_neg at hy1
        rw [inRingGo_const _ _
          (fun e he => onBoundary_false_of_y_out
            ⟨(hedge e he).1.2.2.1, (hedge e he).1.2.2.2⟩
            ⟨(hedge e he).2.2.2.1, (hedge e he).2.2.2.2⟩ (Or.inl hy1))
          (fun e he => edgeCross_false_of_y_out
            ⟨(hedge e he).1.2.2.1, (hedge e he).1.2.2.2⟩
            ⟨(hedge e he).2.2.2.1, (hedge e he).2.2.2.2⟩ (Or.inl hy1))] at h
        exact Bool.false_ne_true h
    · exfalso
      push_neg at hx2
      rw [inRingGo_const _ _
        (fun e he => onBoundary_false_of_x_out
          ⟨(hedge e he).1.1, (hedge e he).1.2.1⟩
          ⟨(hedge e he).2.1, (hedge e he).2.2.1⟩ (Or.inr hx2))
        (fun e he => edgeCross_false_of_x_right
          (hedge e he).1.2.1 (hedge e he).2.2.1 hx2)] at h
      exact Bool.false_ne_true h
  · exfalso
    push_neg at hx1
    have hnb : ∀ e ∈ ringEdges (closeRing ring),
        isOnBoundary x y e.1.1 e.1.2 e.2.1 e.2.2 = false :=
      fun e he => onBoundary_false_of_x_out
        ⟨(hedge e he).1.1, (hedge e he).1.2.1⟩
        ⟨(hedge e he).2.1, (hedge e he).2.2.1⟩ (Or.inl hx1)
    rw [inRingGo_eval _ false hnb] at h
    cases hl : (closeRing ring).getLast? with
    | none =>
      unfold ringEdges at h
      rw [hl] at h
      simp at h
    | some last =>
      have hedges : ringEdges (closeRing ring) =
          (closeRing ring).zip (last :: (closeRing ring).dropLast) := by
        unfold ringEdges
        rw [hl]
      have hcnt : ((ringEdges (closeRing ring)).countP
            fun e => edgeCross x y e.1.1 e.1.2 e.2.1 e.2.2) =
          ((ringEdges (closeRing ring)).countP
            fun e => decide (y < e.1.2) != decide (y < e.2.2)) := by
        apply List.countP_congr
        intro e he
        rw [edgeCross_eq_straddle_of_x_left (hedge e he).1.1
          (hedge e he).2.1 hx1]
      have hl2 : (last :: closeRing ring).getLast? = some last := by
        cases hcr : closeRing ring with
        | nil => rw [hcr] at hl; cases hl
        | cons a t =>
          rw [List.getLast?_cons_cons, ← hcr, hl]
      have hpar := flipCount_parity (fun c : Point => decide (y < c.2))
        (closeRing ring) last last hl2
      rw [if_pos rfl] at hpar
      have heven : Even ((ringEdges (closeRing ring)).countP
          fun e => decide (y < e.1.2) != decide (y < e.2.2)) := by
        rw [hedges]
        have hzf := zip_flipCount (fun c : Point => decide (y < c.2))
          (closeRing ring) last
        rw [hzf]
        exact Nat.even_iff.mpr hpar
      rw [hcnt, if_pos heven] at h
      exact Bool.false_ne_true h

theorem strictlyInterior_inBBox {x y : ℚ} {g : GeoJSONGeometry} {b : BBox}
    (hint : strictlyInterior x y g)
    (hb : ∀ c ∈ extractAllCoordinates g, inBBox c.1 c.2 b) :
    inBBox x y b := by
  cases g with
  | polygon rings =>
    cases rings with
    | nil => cases hint
    | cons outer holes =>
      refine inRing_true_inBBox ?_ hint.1
      intro c hc
      refine hb c ?_
      show c ∈ (outer :: holes).flatten
      rw [List.mem_flatten]
      exact ⟨outer, List.mem_cons_self _ _, hc⟩
  | multiPolygon parts =>
    obtain ⟨part, hpm, hpart⟩ := hint
    cases part with
    | nil => cases hpart
    | cons outer holes =>
      refine inRing_true_inBBox ?_ hpart.1
      intro c hc
      refine hb c ?_
      show c ∈ (parts.map List.flatten).flatten
      rw [List.mem_flatten]
      refine ⟨(outer :: holes).flatten, List.mem_map_of_mem _ hpm, ?_⟩
      rw [List.mem_flatten]
      exact ⟨outer, List.mem_cons_self _ _, hc⟩

/-! ## Claim C6 -/

/-- C6 counterexample: two exactly overlapping unit-square tracts are
loaded; the point `(0.5, 0.5)` is strictly interior to the second
tract's outer ring (which has no holes), yet `findTractForPoint` returns
the first tract's identifier `00000000001`, not the second's
`00000000002` — the matcher returns the first candidate in index order,
not necessarily P's identifier. -/
theorem c6_counterexample_overlapping_polygon_loses :
    loadCensusTractShapefiles [[demoRecord, demoRecordOverlap]] =
      .ok demoIndexOverlap ∧
    demoIndexOverlap.tracts.get? 1 = some demoTractOverlap ∧
    strictlyInterior (1/2) (1/2) demoTractOverlap.geometry ∧
    findTractForPoint (1/2) (1/2) demoIndexOverlap = some "00000000001" ∧
    ¬ findTractForPoint (1/2) (1/2) demoIndexOverlap =
        some demoTractOverlap.geoid := by
  refine ⟨by with_unfolding_all rfl, by with_unfolding_all rfl,
    ⟨by with_unfolding_all rfl, ?_⟩, by with_unfolding_all rfl, ?_⟩
  · intro hring hmem
    cases hmem
  · intro hcontra
    have h1 : findTractForPoint (1/2) (1/2) demoIndexOverlap =
        some "00000000001" := by with_unfolding_all rfl
    rw [h1] at hcontra
    exact absurd (Option.some.inj hcontra) (by decide)

/-- C6 amended: for every index built by `loadCensusTractShapefiles`,
every loaded polygon `P` with well-formed (nonempty, closed) rings, and
every point with in-range coordinates that is strictly interior to `P`'s
outer ring and outside all of `P`'s holes, `findTractForPoint` returns
`P`'s identifier provided `P` is the only loaded polygon whose
containment test passes — the others may fail or throw (a throwing
candidate is caught as a `GeometryTestFailure` and skipped), so the
conclusion holds whatever candidate order the index search yields; in
general match returns the identifier of the first candidate in search
order whose containment test passes. -/
theorem c6_match_returns_first_passing_interior
    (sources : List (List ShapefileRecord)) (s : SpatialIndexData)
    (i : Nat) (P : CensusTract) (x y : ℚ)
    (hload : loadCensusTractShapefiles sources = .ok s)
    (hP : s.tracts.get? i = some P)
    (hlat : -90 ≤ y ∧ y ≤ 90) (hlon : -180 ≤ x ∧ x ≤ 180)
    (hwf : ringsWellFormed P.geometry)
    (hint : strictlyInterior x y P.geometry)
    (hothers : ∀ j T, j ≠ i → s.tracts.get? j = some T →
      booleanPointInPolygonT x y T.geometry false ≠ .ok true) :
    findTractForPoint y x s = some P.geoid := by
  obtain ⟨htr, hit, hbb⟩ := load_ok_spec hload
  have hPmem : P ∈ s.tracts := List.get?_mem hP
  have hbp : booleanPointInPolygonT x y P.geometry false = .ok true := by
    rw [bptpT_of_wf false hwf, strictlyInterior_bpip hint]
  have hPbox : inBBox x y (extractBounds P.geometry) :=
    strictlyInterior_inBBox hint fun c hc => extractBounds_mem hc
  have hGbox : inBBox x y (globalBBox s.tracts) :=
    strictlyInterior_inBBox hint fun c hc => globalBBox_mem hPmem hc
  have hi : i < s.tracts.length := by
    rw [List.get?_eq_some] at hP
    exact hP.1
  unfold findTractForPoint
  rw [if_neg (by
    push_neg
    exact ⟨by linarith [hlat.1], by linarith [hlat.2],
      by linarith [hlon.1], by linarith [hlon.2]⟩)]
  rw [if_neg (by
    rw [hbb]
    push_neg
    exact ⟨hGbox.1, hGbox.2.1, hGbox.2.2.1, hGbox.2.2.2⟩)]
  have hitem : s.items.get? i = some ⟨(extractBounds P.geometry).minX,
      (extractBounds P.geometry).minY, (extractBounds P.geometry).maxX,
      (extractBounds P.geometry).maxY, i⟩ := by
    rw [hit, mkItems_get?, hP]
    rfl
  have hpass : itemContains x y (⟨(extractBounds P.geometry).minX,
      (extractBounds P.geometry).minY, (extractBounds P.geometry).maxX,
      (extractBounds P.geometry).maxY, i⟩ : RBushItem) = true := by
    unfold itemContains
    exact decide_eq_true ⟨hPbox.1, hPbox.2.1, hPbox.2.2.1, hPbox.2.2.2⟩
  have hilen : s.items.length = s.tracts.length := by
    rw [hit]
    simp [mkItems]
  have hidx : i < s.items.length := by
    rw [hilen]
    exact hi
  have hgetI : s.items[i] = (⟨(extractBounds P.geometry).minX,
      (extractBounds P.geometry).minY, (extractBounds P.geometry).maxX,
      (extractBounds P.geometry).maxY, i⟩ : RBushItem) := by
    apply Option.some.inj
    rw [← List.getElem?_eq_getElem hidx, ← List.get?_eq_getElem?]
    exact hitem
  have hdrop : s.items.drop i = (⟨(extractBounds P.geometry).minX,
      (extractBounds P.geometry).minY, (extractBounds P.geometry).maxX,
      (extractBounds P.geometry).maxY, i⟩ : RBushItem) ::
      s.items.drop (i + 1) := by
    rw [List.drop_eq_getElem_cons hidx, hgetI]
  have hlist : s.items.filter (itemContains x y) =
      (s.items.take i).filter (itemContains x y) ++
        (⟨(extractBounds P.geometry).minX, (extractBounds P.geometry).minY,
          (extractBounds P.geometry).maxX, (extractBounds P.geometry).maxY,
          i⟩ : RBushItem) ::
        (s.items.drop (i + 1)).filter (itemContains x y) := by
    conv_lhs => rw [← List.take_append_drop i s.items]
    rw [List.filter_append, hdrop, List.filter_cons, if_pos hpass]
  rw [hlist]
  rw [findTractLoop_skip]
  · show findTractLoop x y s (_ :: _) = some P.geoid
    rw [findTractLoop]
    show (match s.tracts.get? i with
      | none => findTractLoop x y s ((s.items.drop (i + 1)).filter (itemContains x y))
      | some t =>
        match booleanPointInPolygonT x y t.geometry false with
        | .ok true => some t.geoid
        | .ok false => findTractLoop x y s ((s.items.drop (i + 1)).filter (itemContains x y))
        | .error _ => findTractLoop x y s ((s.items.drop (i + 1)).filter (itemContains x y)))
      = some P.geoid
    rw [hP]
    show (match booleanPointInPolygonT x y P.geometry false with
        | .ok true => some P.geoid
        | .ok false => findTractLoop x y s ((s.items.drop (i + 1)).filter (itemContains x y))
        | .error _ => findTractLoop x y s ((s.items.drop (i + 1)).filter (itemContains x y)))
      = some P.geoid
    rw [hbp]
  · intro it hitmem t ht
    have hmem2 : it ∈ s.items.take i := List.mem_of_mem_filter hitmem
    rw [List.mem_take_iff_getElem] at hmem2
    obtain ⟨j, hj, hgetj⟩ := hmem2
    have hjlt : j < i := lt_of_lt_of_le hj (min_le_left _ _)
    have hjlen : j < s.items.length := lt_of_lt_of_le hj (min_le_right _ _)
    have hjt : s.items.get? j = some it := by
      rw [List.get?_eq_getElem?, List.getElem?_eq_getElem hjlen, hgetj]
    rw [hit, mkItems_get?] at hjt
    cases hTj : s.tracts.get? j with
    | none =>
      rw [hTj] at hjt
      cases hjt
    | some T =>
      rw [hTj] at hjt
      have hitval : it = ⟨(extractBounds T.geometry).minX,
          (extractBounds T.geometry).minY, (extractBounds T.geometry).maxX,
          (extractBounds T.geometry).maxY, j⟩ :=
        (Option.some.inj hjt).symm
      have hTt : t = T := by
        rw [hitval] at ht
        show t = T
        have h5 : s.tracts.get? j = some t := ht
        rw [hTj] at h5
        exact (Option.some.inj h5).symm
      rw [hTt]
      exact hothers j T (Nat.ne_of_lt hjlt) hTj

/-- Witness for C6: the single unit-square tract (nonempty closed ring,
no other loaded polygon) and the interior point `(0.5, 0.5)` yield its
identifier. -/
theorem c6_match_returns_first_passing_interior_witness :
    findTractForPoint (1/2) (1/2) demoIndex = some demoTract.geoid := by
  refine c6_match_returns_first_passing_interior [[demoRecord]] demoIndex 0
    demoTract (1/2) (1/2) (by with_unfolding_all rfl)
    (by with_unfolding_all rfl) (by norm_num) (by norm_num)
    ⟨by simp, ?_⟩ ⟨by with_unfolding_all rfl, ?_⟩ ?_
  · intro r hr
    rcases List.mem_singleton.mp hr with rfl
    exact ⟨by simp [unitSquareRing], by with_unfolding_all rfl⟩
  · intro hring hmem
    cases hmem
  · intro j T hj hT
    have hjlt : j < 1 := by
      have hlen := (List.get?_eq_some.mp hT).1
      simpa [demoIndex] using hlen
    exact absurd (Nat.lt_one_iff.mp hjlt) hj

end Tracts
